import Mathlib

/-!
# leanUI: interaction, layout and animation state machine

A shallow embedding of `lean_ui.c` (immediate-mode UI engine).

Modelling conventions

* `float` values are exact rationals: the rounding error of binary32 arithmetic is not part of
  the model, `fmaf(a, b, c)` is `a * b + c`, `fminf`/`fmaxf` are `min`/`max`.
* Pointers are values of `Ptr`: the null pointer, the address of an entry of the window table of
  the context, or the address of an object owned by the caller.  Pointer comparison is equality.
* A caller-owned cell that a widget reads and writes through a pointer (`bool*`, `uint32_t*`,
  `float*`) is passed as the pointer together with the value stored there; the widget returns the
  value stored there on exit.
* `assert` is modelled in its enabled form: a failed assertion makes the operation return `none`.
* The renderer callbacks append to a log of calls that is kept behind the `user` pointer.
* `sinf` and `powf` of the C library are taken as parameters (`libm`).
-/

namespace LeanUI

/-! ## Structures -/

/-- Capacity of the window table. -/
def MAX_WINDOWS : Nat := 16

/-- Size in bytes of the scratch buffer used for formatting. -/
def STRING_BUFFER_SIZE : Nat := 2048

/-- Duration in seconds of a widget animation. -/
def ANIMATION_DURATION : ℚ := 2 / 10

/-- Duration in seconds of the hover tween. -/
def HOVER_DURATION : ℚ := 1 / 10

/-- Pointers that the engine stores and compares. -/
inductive Ptr where
  | null : Ptr
  | window (index : Nat) : Ptr
  | user (addr : Nat) : Ptr
deriving DecidableEq, Repr

/-- A C string: the address it lives at and the bytes before the terminating zero. -/
structure c_string where
  addr : Ptr
  bytes : List Nat
deriving DecidableEq, Repr

structure ui_rect where
  x : ℚ
  y : ℚ
  width : ℚ
  height : ℚ
deriving DecidableEq, Repr

structure ui_vec2 where
  x : ℚ
  y : ℚ
deriving DecidableEq, Repr

inductive ui_button_state where
  | button_idle
  | button_pressed
  | button_released
deriving DecidableEq, Repr

inductive ui_text_alignment where
  | align_left
  | align_center
  | align_right
deriving DecidableEq, Repr

structure ui_window where
  name : c_string
  id : Nat
  pos : ui_vec2
  width : ℚ
  height : ℚ
deriving DecidableEq, Repr

structure ui_colors where
  window_border : Nat
  window_bg : Nat
  title_bg : Nat
  title_text : Nat
  widget_bg : Nat
  widget_hover : Nat
  widget_active : Nat
  text : Nat
  accent : Nat
  value_bg : Nat
  value_text : Nat
  separator : Nat
deriving DecidableEq, Repr

structure ui_animation where
  value_key0 : ℚ
  value_key1 : ℚ
  color_key0 : Nat
  color_key1 : Nat
  key0_to_key1 : Bool
  t : ℚ
  widget : Ptr
deriving DecidableEq, Repr

structure ui_hover where
  widget : Ptr
  t : ℚ
deriving DecidableEq, Repr

/-- One call received by the host renderer. -/
inductive draw_call where
  | draw_box (x y width height radius : ℚ) (srgb_color : Nat) : draw_call
  | draw_text (x y : ℚ) (text : List Nat) (srgb_color : Nat) : draw_call
  | set_clip_rect (min_x min_y max_x max_y : Nat) : draw_call
deriving DecidableEq, Repr

/-- The renderer callbacks: `text_width` is the host's measuring function, `user` is the host
state behind the user pointer, here the calls received so far, oldest first. -/
structure ui_renderer_fnc_t where
  text_width : List Nat → ℚ
  user : List draw_call

structure ui_context where
  mouse_pos : ui_vec2
  mouse_button : ui_button_state
  mouse_down : Bool
  windows : List ui_window
  current_window : Option Nat
  dragging_object : Ptr
  animation : ui_animation
  hover : ui_hover
  dragging_offset : ui_vec2
  layout : ui_rect
  font_height : ℚ
  row_height : ℚ
  padding : ℚ
  corners_radius : ℚ
  colors : ui_colors
  renderer : ui_renderer_fnc_t
  string_buffer : List Nat

/-- Number of used entries of the window table. -/
def ui_context.num_windows (ctx : ui_context) : Nat := ctx.windows.length

/-- The window the context currently points at, when there is one. -/
def ui_context.window (ctx : ui_context) : Option ui_window :=
  match ctx.current_window with
  | none => none
  | some i => ctx.windows.get? i

/-- The C library functions the engine calls that have no rational model. -/
structure libm where
  sinf : ℚ → ℚ
  powf : ℚ → ℚ → ℚ

/-! ## Inline functions -/

def ui_vec2_sub (a b : ui_vec2) : ui_vec2 := ⟨a.x - b.x, a.y - b.y⟩

def in_rect (rect : ui_rect) (pos : ui_vec2) : Bool :=
  decide (pos.x ≥ rect.x) && decide (pos.x ≤ rect.x + rect.width) &&
    decide (pos.y ≥ rect.y) && decide (pos.y ≤ rect.y + rect.height)

def expand_rect (rect : ui_rect) (amount : ℚ) : ui_rect :=
  { x := rect.x - amount, y := rect.y - amount,
    width := rect.width + amount * 2, height := rect.height + amount * 2 }

def lerp_float (a b t : ℚ) : ℚ := (b - a) * t + a

def clamp_float (min_value max_value f : ℚ) : ℚ := min max_value (max min_value f)

def ease_in_quad (x : ℚ) : ℚ := x * x

def ease_in_cubic (x : ℚ) : ℚ := x * x * x

def ease_impulse (m : libm) (x : ℚ) : ℚ := ease_in_cubic (m.sinf (x * (314159265 / 100000000)))

def ease_in_expo (m : libm) (x : ℚ) : ℚ := if x = 0 then 0 else m.powf 2 (10 * x - 10)

def ease_out_back (x : ℚ) : ℚ :=
  let c1 : ℚ := 8 / 10
  let c3 : ℚ := c1 + 1
  1 + c3 * ease_in_cubic (x - 1) + c1 * ease_in_quad (x - 1)

/-- The C library `roundf`: nearest integer, halves away from zero. -/
def roundf (x : ℚ) : ℚ := if 0 ≤ x then (⌊x + 1 / 2⌋ : ℤ) else -((⌊-x + 1 / 2⌋ : ℤ) : ℚ)

/-- Conversion of a `float` to `int`: the fractional part is discarded. -/
def float_to_int (x : ℚ) : ℤ := if 0 ≤ x then ⌊x⌋ else ⌈x⌉

/-- Conversion of an `int` to `uint32_t`. -/
def to_uint32 (x : ℤ) : Nat := (x % 4294967296).toNat

/-- Conversion of a `float` to `uint16_t`. -/
def to_uint16 (x : ℚ) : Nat := (float_to_int x % 65536).toNat

def ui_hash (data : List Nat) : Nat :=
  data.foldl (fun hash p => ((hash ^^^ (p % 256)) * 0x01000193) % 4294967296) 0x811c9dc5

def lerp_color (a b : Nat) (t : ℚ) : Nat :=
  let tt : ℤ := float_to_int (t * 256)
  let oneminust : ℤ := 256 - tt
  let channel (shift : Nat) : Nat :=
    ((((a >>> shift) &&& 0xFF) * to_uint32 oneminust + ((b >>> shift) &&& 0xFF) * to_uint32 tt)
      % 4294967296) >>> 8
  let A := channel 24
  let B := channel 16
  let G := channel 8
  let R := channel 0
  ((A <<< 24) % 4294967296) ||| ((B <<< 16) % 4294967296) ||| ((G <<< 8) % 4294967296) ||| R

/-- Invocation of a renderer callback: the call is appended to the host's log. -/
def emit (ctx : ui_context) (c : draw_call) : ui_context :=
  { ctx with renderer := { ctx.renderer with user := ctx.renderer.user ++ [c] } }

def draw_align_text (ctx : ui_context) (rect : ui_rect) (text : List Nat) (srgb_color : Nat)
    (alignment : ui_text_alignment) : ui_context :=
  if alignment = .align_left then
    emit ctx (.draw_text rect.x rect.y text srgb_color)
  else
    let text_width := ctx.renderer.text_width text
    if alignment = .align_right then
      emit ctx (.draw_text (rect.x + rect.width - text_width) rect.y text srgb_color)
    else
      emit ctx (.draw_text (rect.x + rect.width * (1 / 2) - text_width * (1 / 2)) rect.y text
        srgb_color)

/-! ## UI functions -/

/-- The fields of `ui_def` the model keeps: the callbacks are present by construction, so the
assertion of `ui_init` cannot fail. -/
structure ui_def where
  renderer_callbacks : ui_renderer_fnc_t
  font_height : ℚ

def ui_init (d : ui_def) : ui_context :=
  { mouse_pos := ⟨0, 0⟩
    mouse_button := .button_idle
    mouse_down := false
    windows := []
    current_window := none
    dragging_object := .null
    animation := ⟨0, 0, 0, 0, false, 0, .null⟩
    hover := ⟨.null, 0⟩
    dragging_offset := ⟨0, 0⟩
    layout := ⟨0, 0, 0, 0⟩
    font_height := d.font_height
    row_height := d.font_height * (3 / 2)
    padding := max (d.font_height / 4) 2
    corners_radius := max (d.font_height / 2) 2
    colors :=
      { window_bg := 0xFFF7F0E9
        window_border := 0xFFE3CDB8
        title_bg := 0xFFE5C4A8
        title_text := 0xFF402A1B
        widget_bg := 0xFFF4E6D8
        widget_hover := 0xFFEEDBC3
        widget_active := 0xFFE7CCB0
        text := 0xFF553E2C
        accent := 0xFFE68B3E
        value_bg := 0xFFEDE6DE
        value_text := 0xFF1E1E1E
        separator := 0x40553E2C }
    renderer := d.renderer_callbacks
    string_buffer := [] }

def ui_update_mouse_pos (ctx : ui_context) (x y : ℚ) : ui_context :=
  { ctx with mouse_pos := ⟨x, y⟩ }

def ui_update_mouse_button (ctx : ui_context) (button : ui_button_state) : ui_context :=
  { ctx with mouse_button := button, mouse_down := decide (button = .button_pressed) }

def ui_begin_frame (ctx : ui_context) (delta_time : ℚ) : ui_context :=
  { ctx with
    current_window := none
    animation := { ctx.animation with t := min 1 (ctx.animation.t + delta_time / ANIMATION_DURATION) }
    hover := { ctx.hover with t := min 1 (ctx.hover.t + delta_time / HOVER_DURATION) } }

/-- The lookup loop of `ui_begin_window`: `cur` is the entry found so far, `i` the index of the
head of the remaining entries; a later entry with the same id replaces an earlier one. -/
def find_window (id : Nat) : List ui_window → Nat → Option Nat → Option Nat
  | [], _, cur => cur
  | w :: ws, i, cur => find_window id ws (i + 1) (if w.id = id then some i else cur)

/-- The local `title_rect` of `ui_begin_window`, computed from the window entry as it is before
the drag update. -/
def title_rect0 (ctx : ui_context) (w : ui_window) : ui_rect :=
  ⟨w.pos.x + ctx.padding, w.pos.y + ctx.padding, w.width - ctx.padding * 2, ctx.row_height⟩

/-- The second part of `ui_begin_window`, after the current window has been set to entry `i`,
which holds `w0`: title-bar drag, painting, layout cursor and clip rectangle. -/
def begin_window_body (ctx : ui_context) (i : Nat) (w0 : ui_window) : ui_context :=
  let title_rect : ui_rect := title_rect0 ctx w0
  -- move the window if click on the title bar
  let ctx :=
    if ctx.mouse_button = .button_pressed ∧ in_rect title_rect ctx.mouse_pos = true then
      { ctx with dragging_object := .window i
                 dragging_offset := ui_vec2_sub ctx.mouse_pos w0.pos }
    else ctx
  let ctx :=
    if ctx.mouse_button = .button_released ∧ ctx.dragging_object = .window i then
      { ctx with dragging_object := .null }
    else ctx
  let w : ui_window :=
    if ctx.mouse_down = true ∧ ctx.dragging_object = .window i then
      { w0 with pos := ui_vec2_sub ctx.mouse_pos ctx.dragging_offset }
    else w0
  let ctx := { ctx with windows := ctx.windows.set i w }
  -- border
  let ctx := emit ctx (.draw_box w.pos.x w.pos.y w.width w.height ctx.corners_radius
    ctx.colors.window_border)
  -- title bg
  let ctx := emit ctx (.draw_box title_rect.x title_rect.y title_rect.width title_rect.height
    ctx.corners_radius ctx.colors.title_bg)
  let ctx := { ctx with layout :=
    { x := w.pos.x + ctx.padding
      y := title_rect.y + title_rect.height + ctx.padding
      width := w.width - ctx.padding * 2
      height := ctx.row_height } }
  -- background
  let ctx := emit ctx (.draw_box ctx.layout.x ctx.layout.y ctx.layout.width
    (w.height - title_rect.height - ctx.padding * 3) 0 ctx.colors.window_bg)
  let ctx := { ctx with layout :=
    { ctx.layout with x := ctx.layout.x + ctx.padding
                      width := ctx.layout.width - 2 * ctx.padding } }
  -- title
  let ctx := draw_align_text ctx title_rect w.name.bytes ctx.colors.title_text .align_center
  -- clip rect
  let clip_minx := to_uint16 (max ctx.layout.x 0)
  let clip_miny := to_uint16 (max ctx.layout.y 0)
  let clip_maxx := to_uint16 (ctx.layout.x + ctx.layout.width + 1 / 2)
  let clip_maxy := to_uint16 (w.pos.y + w.height - ctx.padding + 1 / 2)
  emit ctx (.set_clip_rect clip_minx clip_miny clip_maxx clip_maxy)

/-- The first part of `ui_begin_window`, up to the point where `current_window` is set: the
context with the current window set, the index of its entry and the entry itself.  The entry is
the one found by the lookup, or else a new one appended to the table. -/
def window_entry (ctx : ui_context) (name : c_string) (x y width height : ℚ) :
    Option (ui_context × Nat × ui_window) :=
  if ctx.current_window ≠ none then none
  else
    let id := ui_hash name.bytes
    -- already created?
    match find_window id ctx.windows 0 none with
    | some i =>
      match ctx.windows.get? i with
      | some w => some ({ ctx with current_window := some i }, i, w)
      | none => none
    | none =>
      -- not found, create one
      if ctx.num_windows < MAX_WINDOWS then
        let w : ui_window :=
          { name := name
            id := id
            pos := ⟨x, y⟩
            width := max width (ctx.renderer.text_width name.bytes + ctx.padding * 2)
            height := max height (ctx.font_height + ctx.padding * 2) }
        some ({ ctx with windows := ctx.windows ++ [w], current_window := some ctx.num_windows },
          ctx.num_windows, w)
      else none

def ui_begin_window (ctx : ui_context) (name : c_string) (x y width height : ℚ) :
    Option ui_context :=
  (window_entry ctx name x y width height).map fun e => begin_window_body e.1 e.2.1 e.2.2

/-- Output of `vsnprintf` into the scratch buffer: `formatted` is the complete expansion of
the format string, of which at most `STRING_BUFFER_SIZE - 1` bytes are kept. -/
def vsnprintf (ctx : ui_context) (formatted : List Nat) : ui_context :=
  { ctx with string_buffer := formatted.take (STRING_BUFFER_SIZE - 1) }

def ui_text (ctx : ui_context) (alignment : ui_text_alignment) (formatted : List Nat) :
    Option ui_context :=
  if ctx.current_window = none then none
  else
    let ctx := vsnprintf ctx formatted
    some (draw_align_text ctx ctx.layout ctx.string_buffer ctx.colors.text alignment)

def ui_newline (ctx : ui_context) : Option ui_context :=
  match ctx.window with
  | none => none
  | some w =>
    some { ctx with layout :=
      { ctx.layout with x := w.pos.x + ctx.padding * 2
                        y := ctx.layout.y + ctx.row_height
                        width := w.width - ctx.padding * 4 } }

def ui_separator (ctx : ui_context) : Option ui_context :=
  if ctx.current_window = none then none
  else
    let y := ctx.layout.y + (1 / 2) * ctx.layout.height
    let ctx := emit ctx (.draw_box ctx.layout.x y ctx.layout.width 1 1 ctx.colors.separator)
    ui_newline ctx

def ui_value (ctx : ui_context) (label : c_string) (formatted : List Nat) : Option ui_context :=
  if ctx.current_window = none then none
  else
    let ctx := vsnprintf ctx formatted
    let value_rect : ui_rect :=
      ⟨ctx.layout.x + ctx.layout.width * (1 / 2), ctx.layout.y, ctx.layout.width * (1 / 2),
        ctx.layout.height⟩
    let ctx := emit ctx (.draw_text ctx.layout.x ctx.layout.y label.bytes ctx.colors.text)
    let ctx := emit ctx (.draw_box value_rect.x value_rect.y value_rect.width value_rect.height 0
      ctx.colors.value_bg)
    let ctx := emit ctx (.draw_box (value_rect.x - 1 / 2) (value_rect.y + ctx.padding) 1
      (value_rect.height - ctx.padding * 2) 0 ctx.colors.separator)
    let ctx := draw_align_text ctx value_rect ctx.string_buffer ctx.colors.value_text .align_right
    ui_newline ctx

/-- The local `track_rect` of `ui_toggle`. -/
def toggle_track_rect (ctx : ui_context) : ui_rect :=
  { x := ctx.layout.x + ctx.layout.width - ctx.font_height * 2 - ctx.padding
    y := ctx.layout.y + ctx.padding
    width := ctx.font_height * 2
    height := ctx.font_height }

def ui_toggle (ctx : ui_context) (label : c_string) (value : Ptr) (v : Bool) :
    Option (Bool × ui_context) :=
  let ctx := draw_align_text ctx ctx.layout label.bytes ctx.colors.text .align_left
  let track_rect : ui_rect := toggle_track_rect ctx
  let hit : Bool := in_rect track_rect ctx.mouse_pos && decide (ctx.mouse_button = .button_pressed)
  let v : Bool := if hit then !v else v
  -- setup tweening animation, animate thumb position and track color
  let ctx :=
    if hit then
      { ctx with animation :=
        { value_key0 := track_rect.x + ctx.font_height - 2
          value_key1 := track_rect.x + 2
          color_key0 := ctx.colors.accent
          color_key1 := ctx.colors.separator
          key0_to_key1 := !v
          t := 0
          widget := value } }
    else ctx
  let thumb_rect : ui_rect :=
    { x := if v then track_rect.x + ctx.font_height - 2 else track_rect.x + 2
      y := track_rect.y + 2
      width := ctx.font_height - 4
      height := ctx.font_height - 4 }
  let t : ℚ := if ctx.animation.key0_to_key1 then ctx.animation.t else 1 - ctx.animation.t
  let thumb_rect : ui_rect :=
    if ctx.animation.widget = value then
      { thumb_rect with x := lerp_float ctx.animation.value_key0 ctx.animation.value_key1 t }
    else thumb_rect
  let track_color : Nat :=
    if ctx.animation.widget = value then
      lerp_color ctx.animation.color_key0 ctx.animation.color_key1 t
    else if v then ctx.colors.accent else ctx.colors.separator
  let ctx := emit ctx (.draw_box track_rect.x track_rect.y track_rect.width track_rect.height
    (track_rect.height * (1 / 2)) track_color)
  let thumb_rect : ui_rect :=
    if in_rect track_rect ctx.mouse_pos then expand_rect thumb_rect 1 else thumb_rect
  let ctx := emit ctx (.draw_box thumb_rect.x thumb_rect.y thumb_rect.width thumb_rect.height
    (thumb_rect.height * (1 / 2)) ctx.colors.text)
  (ui_newline ctx).map (fun ctx => (v, ctx))

/-- State carried by the loop over the cells of `ui_segmented`: the context, the value stored
at `selected`, and the rectangle of the cell about to be visited. -/
structure segmented_state where
  ctx : ui_context
  selected : Nat
  seg_rect : ui_rect

/-- Body of the loop over the cells of `ui_segmented`, for cell `i`. -/
def segmented_cell (entries : List c_string) (selected : Ptr) (st : segmented_state) (i : Nat) :
    segmented_state :=
  let ctx := st.ctx
  let seg_rect := st.seg_rect
  let button_rect : ui_rect := { seg_rect with y := seg_rect.y + ctx.padding }
  let hit : Bool := in_rect button_rect ctx.mouse_pos
  let pressed : Bool := hit && decide (ctx.mouse_button = .button_pressed)
  let ctx :=
    if pressed then
      { ctx with animation :=
        { value_key0 := ctx.layout.x + seg_rect.width * (st.selected : ℚ)
          value_key1 := ctx.layout.x + seg_rect.width * (i : ℚ)
          color_key0 := 0
          color_key1 := 0
          key0_to_key1 := false
          t := 0
          widget := selected } }
    else if hit && decide (i ≠ st.selected) then
      emit ctx (.draw_box seg_rect.x (seg_rect.y + ctx.padding) seg_rect.width seg_rect.height
        ctx.padding ctx.colors.widget_hover)
    else ctx
  let sel : Nat := if pressed then i else st.selected
  let ctx := draw_align_text ctx seg_rect (entries.getD i ⟨.null, []⟩).bytes ctx.colors.text
    .align_center
  -- separator
  let ctx :=
    if i > 0 then
      emit ctx (.draw_box (seg_rect.x - 1 / 2) (seg_rect.y + ctx.padding * 2) 1
        (seg_rect.height - 2 * ctx.padding) 0 ctx.colors.separator)
    else ctx
  { ctx := ctx, selected := sel, seg_rect := { seg_rect with x := seg_rect.x + seg_rect.width } }

def ui_segmented (ctx : ui_context) (entries : List c_string) (num_entries : Nat)
    (selected : Ptr) (sel : Nat) : Option (Nat × ui_context) :=
  let seg_rect : ui_rect :=
    { x := ctx.layout.x
      y := ctx.layout.y
      width := ctx.layout.width / (num_entries : ℚ)
      height := ctx.font_height }
  let ctx := emit ctx (.draw_box seg_rect.x (seg_rect.y + ctx.padding) ctx.layout.width
    seg_rect.height ctx.corners_radius ctx.colors.widget_bg)
  let ctx :=
    if sel < num_entries then
      let x : ℚ :=
        if ctx.animation.widget = selected then
          lerp_float ctx.animation.value_key0 ctx.animation.value_key1
            (ease_out_back ctx.animation.t)
        else seg_rect.x + seg_rect.width * (sel : ℚ)
      emit ctx (.draw_box (x + ctx.padding) (seg_rect.y + ctx.padding)
        (seg_rect.width - 2 * ctx.padding) seg_rect.height ctx.padding ctx.colors.accent)
    else ctx
  let st := (List.range num_entries).foldl (segmented_cell entries selected)
    { ctx := ctx, selected := sel, seg_rect := seg_rect }
  (ui_newline st.ctx).map (fun ctx => (st.selected, ctx))

/-- The local `track_rect` of `ui_slider`, computed from the layout cursor of the second row. -/
def slider_track_rect (ctx : ui_context) : ui_rect :=
  { x := ctx.layout.x + (1 / 10) * ctx.layout.width
    y := ctx.layout.y + (1 / 2) * ctx.layout.height - ctx.padding * (1 / 2)
    width := (8 / 10) * ctx.layout.width
    height := ctx.padding }

/-- The pointer handling of `ui_slider` (thumb mouse-over and dragging, click on the track,
release): `thumb_rect` is the thumb before it is inflated and `thumb_x` its centre. -/
def slider_pointer (ctx : ui_context) (value : Ptr) (track_rect thumb_rect : ui_rect)
    (thumb_x : ℚ) : ui_context :=
  -- thumb mouse-over and dragging
  let ctx :=
    if in_rect thumb_rect ctx.mouse_pos then
      if ctx.mouse_button = .button_pressed then
        { ctx with dragging_object := value
                   dragging_offset := { ctx.dragging_offset with x := ctx.mouse_pos.x - thumb_x } }
      else ctx
    else if in_rect track_rect ctx.mouse_pos = true ∧ ctx.mouse_button = .button_pressed then
      -- click on track make the thumb move
      let ctx := { ctx with animation :=
        { value_key0 := thumb_x
          value_key1 := ctx.mouse_pos.x
          color_key0 := 0
          color_key1 := 0
          key0_to_key1 := false
          t := 0
          widget := value } }
      if ctx.dragging_object = value then { ctx with dragging_object := .null } else ctx
    else ctx
  if ctx.mouse_button = .button_released ∧ ctx.dragging_object = value then
    { ctx with dragging_object := .null }
  else ctx

/-- The second row of `ui_slider`: everything after the first `ui_newline`, with `v` the
value stored at `value` (clamped on entry). -/
def slider_row2 (ctx : ui_context) (min_value max_value step : ℚ) (value : Ptr) (v : ℚ) :
    Option (ℚ × ui_context) :=
  let center_y := ctx.layout.y + (1 / 2) * ctx.layout.height
  -- track
  let track_rect : ui_rect := slider_track_rect ctx
  -- track change color on mouse-over
  let track_color : Nat :=
    if in_rect track_rect ctx.mouse_pos then ctx.colors.widget_hover else ctx.colors.widget_bg
  let ctx := emit ctx (.draw_box track_rect.x track_rect.y track_rect.width track_rect.height
    (track_rect.height * (1 / 2)) track_color)
  -- thumb geometry
  let norm_value := (v - min_value) / (max_value - min_value)
  let thumb_x := norm_value * track_rect.width + track_rect.x
  let thumb_size := ctx.font_height - 4
  let half_size := thumb_size * (1 / 2)
  let thumb_rect : ui_rect :=
    { x := thumb_x - half_size
      y := center_y - half_size
      width := thumb_size
      height := thumb_size }
  let over_thumb : Bool := in_rect thumb_rect ctx.mouse_pos
  let ctx := slider_pointer ctx value track_rect thumb_rect thumb_x
  let thumb_rect : ui_rect := if over_thumb then expand_rect thumb_rect 2 else thumb_rect
  -- click-on-track update
  let thumb_x :=
    if ctx.animation.widget = value then
      lerp_float ctx.animation.value_key0 ctx.animation.value_key1 ctx.animation.t
    else thumb_x
  -- drag update
  let thumb_x :=
    if ctx.mouse_down = true ∧ ctx.dragging_object = value then
      ctx.mouse_pos.x - ctx.dragging_offset.x
    else thumb_x
  let thumb_x := clamp_float track_rect.x (track_rect.x + track_rect.width) thumb_x
  let norm_value := (thumb_x - track_rect.x) / track_rect.width
  let v := norm_value * (max_value - min_value) + min_value
  let v := if step > 0 then roundf (v / step) * step else v
  let ctx := emit ctx (.draw_box thumb_rect.x thumb_rect.y thumb_rect.width thumb_rect.height
    half_size ctx.colors.accent)
  (ui_newline ctx).map (fun ctx => (v, ctx))

def ui_slider (ctx : ui_context) (label : c_string) (min_value max_value step : ℚ)
    (value : Ptr) (v : ℚ) (fmt : ℚ → List Nat) : Option (ℚ × ui_context) :=
  if ¬ (max_value > min_value) then none
  else
    -- always clamp in case the user change the value
    let v := clamp_float min_value max_value v
    -- first row is just label + value
    let ctx := vsnprintf ctx (fmt v)
    let ctx := draw_align_text ctx ctx.layout label.bytes ctx.colors.text .align_left
    let ctx := draw_align_text ctx ctx.layout ctx.string_buffer ctx.colors.text .align_right
    match ui_newline ctx with
    | none => none
    | some ctx => slider_row2 ctx min_value max_value step value v

/-- The local `button_rect` of `ui_button` as first computed, before any inflation. -/
def button_rect0 (ctx : ui_context) (label : c_string) (alignment : ui_text_alignment) :
    ui_rect :=
  let text_width := ctx.renderer.text_width label.bytes
  let button_width := text_width + 2 * ctx.padding
  { x :=
      match alignment with
      | .align_left => ctx.layout.x
      | .align_center => ctx.layout.x + ctx.layout.width * (1 / 2) - button_width * (1 / 2)
      | .align_right => ctx.layout.x + ctx.layout.width - button_width
    y := ctx.layout.y
    width := button_width
    height := ctx.row_height }

def ui_button (m : libm) (ctx : ui_context) (label : c_string) (alignment : ui_text_alignment) :
    Bool × ui_context :=
  let button_rect : ui_rect := button_rect0 ctx label alignment
  let text_pos : ui_vec2 :=
    ⟨button_rect.x + ctx.padding,
      button_rect.y + button_rect.height * (1 / 2) - ctx.font_height + ctx.padding⟩
  let r : Bool × ui_context × Nat × ui_rect :=
    if ctx.animation.widget = label.addr then
      (false, ctx,
        lerp_color ctx.colors.accent ctx.colors.window_bg (ease_in_expo m ctx.animation.t),
        expand_rect button_rect (-ease_impulse m ctx.animation.t * 2))
    else if in_rect button_rect ctx.mouse_pos then
      if ctx.mouse_button = .button_pressed then
        (true,
          if ctx.animation.widget ≠ label.addr then
            { ctx with animation := ⟨0, 0, 0, 0, false, 0, label.addr⟩ }
          else ctx,
          ctx.colors.widget_bg, button_rect)
      else
        if ctx.animation.widget = label.addr ∧ ctx.mouse_down = true then
          (false, ctx, ctx.colors.accent, button_rect)
        else if ctx.hover.widget = label.addr then
          (false, ctx, lerp_color ctx.colors.widget_bg ctx.colors.widget_hover ctx.hover.t,
            button_rect)
        else
          (false, { ctx with hover := ⟨label.addr, 0⟩ }, ctx.colors.widget_bg, button_rect)
    else if ctx.hover.widget = label.addr then
      (false, { ctx with hover := { ctx.hover with widget := .null } }, ctx.colors.widget_bg,
        button_rect)
    else (false, ctx, ctx.colors.widget_bg, button_rect)
  let clicked := r.1
  let ctx := r.2.1
  let button_color := r.2.2.1
  let button_rect := r.2.2.2
  -- border
  let ctx := emit ctx (.draw_box button_rect.x button_rect.y button_rect.width button_rect.height
    ctx.corners_radius ctx.colors.separator)
  let button_rect := expand_rect button_rect (-1)
  let ctx := emit ctx (.draw_box button_rect.x button_rect.y button_rect.width button_rect.height
    ctx.corners_radius button_color)
  let ctx := emit ctx (.draw_text text_pos.x text_pos.y label.bytes ctx.colors.text)
  (clicked, ctx)

def ui_end_window (ctx : ui_context) : Option ui_context :=
  if ctx.current_window = none then none
  else
    some (emit { ctx with current_window := none } (.set_clip_rect 0 0 65535 65535))

def ui_end_frame (ctx : ui_context) : Option ui_context :=
  if ctx.current_window ≠ none then none
  else
    let ctx := { ctx with mouse_button := .button_idle }
    if ctx.animation.t ≥ 1 then
      some { ctx with animation := { ctx.animation with widget := .null, t := 1 } }
    else some ctx

/-! ## Definitions used to state the properties -/

/-- The draw call that `draw_align_text` issues. -/
def draw_align_text_call (text_width : List Nat → ℚ) (rect : ui_rect) (text : List Nat)
    (srgb_color : Nat) (alignment : ui_text_alignment) : draw_call :=
  match alignment with
  | .align_left => .draw_text rect.x rect.y text srgb_color
  | .align_right => .draw_text (rect.x + rect.width - text_width text) rect.y text srgb_color
  | .align_center =>
    .draw_text (rect.x + rect.width * (1 / 2) - text_width text * (1 / 2)) rect.y text srgb_color

/-- Selection and animation slot after the first `k` cells of the loop of `ui_segmented`, where
`hit j` tells whether cell `j` takes the press and `mk s j` is the animation it installs. -/
def seg_scan (hit : Nat → Bool) (mk : Nat → Nat → ui_animation) (s : Nat) (a : ui_animation) :
    Nat → Nat × ui_animation
  | 0 => (s, a)
  | k + 1 =>
    if hit k then (k, mk (seg_scan hit mk s a k).1 k) else seg_scan hit mk s a k

/-- Host renderer measuring 16 pixels per byte, with an empty log. -/
def demo_host : ui_renderer_fnc_t := ⟨fun s => 16 * (s.length : ℚ), []⟩

/-- Context right after `ui_init` with `font_height = 32`. -/
def demo_init : ui_context := ui_init ⟨demo_host, 32⟩

/-- The string "W" at caller address 1. -/
def demo_name : c_string := ⟨.user 1, [87]⟩

/-- The string "D" at caller address 2. -/
def demo_label : c_string := ⟨.user 2, [68]⟩

/-- A formatter that prints nothing. -/
def demo_fmt : ℚ → List Nat := fun _ => []

/-- Context inside window "W" at the origin, 1032 wide: the layout row is 1000 wide at x = 16. -/
def demo_open : Option ui_context := ui_begin_window demo_init demo_name 0 0 1032 300

/-- The window record that `demo_open` creates. -/
def demo_w : ui_window := ⟨demo_name, ui_hash [87], ⟨0, 0⟩, 1032, 300⟩

/-- The entries "A", "B", "C", "D" of a four cell segmented control. -/
def demo_entries4 : List c_string :=
  [⟨.user 10, [65]⟩, ⟨.user 11, [66]⟩, ⟨.user 12, [67]⟩, ⟨.user 13, [68]⟩]

/-- Context inside window "W" on a frame where the button is pressed with the mouse at
`(x, y)`; the first layout row spans x from 16 to 1016 and a segmented control tests y from 72
to 104. -/
def demo_press (x y : ℚ) : ui_context :=
  (ui_begin_window (ui_update_mouse_pos (ui_update_mouse_button demo_init .button_pressed) x y)
    demo_name 0 0 1032 300).getD demo_init

/-- Stand-in for the C library in evaluations that do not depend on it. -/
def demo_libm : libm := ⟨fun _ => 0, fun _ _ => 0⟩

/-- The button label "OK" at caller address 20: the button is 48 wide. -/
def demo_ok : c_string := ⟨.user 20, [79, 75]⟩

/-- Context inside window "W" on the frame after a press, with the button still held: the
press was reported in a frame that only opened and closed the window, and the mouse is now at
`(x, y)`. -/
def demo_held (x y : ℚ) : ui_context :=
  ((ui_end_window (demo_press x y)).bind fun c => (ui_end_frame c).bind fun c =>
    ui_begin_window (ui_begin_frame c (1 / 60)) demo_name 0 0 1032 300).getD demo_init

/-- Scenario S5, second frame: the context after a click on the left aligned button "OK", one
sixtieth of a second later, with the button reported pressed again at the same place. -/
def demo_s5_frame2 : ui_context :=
  ((ui_end_window (ui_button demo_libm (demo_press 30 80) demo_ok .align_left).2).bind fun c =>
    (ui_end_frame c).bind fun c =>
      ui_begin_window (ui_begin_frame (ui_update_mouse_button c .button_pressed) (1 / 60))
        demo_name 0 0 1032 300).getD demo_init

/-- Runs `ui_end_window` and `ui_end_frame` on an open window. -/
def demo_close (c : Option ui_context) : Option ui_context :=
  c.bind fun c => (ui_end_window c).bind ui_end_frame

/-- Context after a first frame that created window "W" at (0, 0), 1032 by 300. -/
def demo_closed : ui_context := (demo_close demo_open).getD demo_init

/-- Scenario S1: context after a first frame that created window "W" at (100, 100), 400 by
300. -/
def demo_s1_created : ui_context :=
  (demo_close (ui_begin_window demo_init demo_name 100 100 400 300)).getD demo_init

/-- Scenario S1: the frame in which the button is pressed at (120, 110), inside the title
bar, before `ui_begin_window`. -/
def demo_s1_press : ui_context :=
  ui_begin_frame
    (ui_update_mouse_pos (ui_update_mouse_button demo_s1_created .button_pressed) 120 110) (1 / 60)

/-- Scenario S1: the next frame, with the button still held and the mouse moved to
(220, 210), before `ui_begin_window`. -/
def demo_s1_later : ui_context :=
  ui_begin_frame
    (ui_update_mouse_pos
      ((demo_close (ui_begin_window demo_s1_press demo_name 100 100 400 300)).getD demo_init)
      220 210) (1 / 60)

/-- The context `X` differs from `c` at most in the slots a widget may write before it moves
the layout cursor: animation, hover, drag target and offset, renderer log, scratch buffer. -/
def draw_step (c X : ui_context) : Prop :=
  ∃ a h d o log sb, X =
    { c with animation := a, hover := h, dragging_object := d, dragging_offset := o
             renderer := { c.renderer with user := log }, string_buffer := sb }

/-- The layout cursor that `ui_newline` installs in context `c` whose current window is `w`. -/
def newline_layout (c : ui_context) (w : ui_window) : ui_rect :=
  { c.layout with x := w.pos.x + c.padding * 2
                  y := c.layout.y + c.row_height
                  width := w.width - c.padding * 4 }

/-- One widget call with its arguments; a caller-owned cell is given by its address and the
value stored there at the time of the call. -/
inductive widget_call where
  | text (alignment : ui_text_alignment) (formatted : List Nat) : widget_call
  | value (label : c_string) (formatted : List Nat) : widget_call
  | separator : widget_call
  | toggle (label : c_string) (value : Ptr) (v : Bool) : widget_call
  | segmented (entries : List c_string) (num_entries : Nat) (selected : Ptr) (sel : Nat) :
      widget_call
  | slider (label : c_string) (min_value max_value step : ℚ) (value : Ptr) (v : ℚ)
      (fmt : ℚ → List Nat) : widget_call
  | button (label : c_string) (alignment : ui_text_alignment) : widget_call

/-- The context after a widget call, `none` when an assertion fails. -/
def widget_call.run (m : libm) (ctx : ui_context) : widget_call → Option ui_context
  | .text alignment formatted => ui_text ctx alignment formatted
  | .value label formatted => ui_value ctx label formatted
  | .separator => ui_separator ctx
  | .toggle label ptr v => (ui_toggle ctx label ptr v).map Prod.snd
  | .segmented entries num_entries selected sel =>
    (ui_segmented ctx entries num_entries selected sel).map Prod.snd
  | .slider label min_value max_value step ptr v fmt =>
    (ui_slider ctx label min_value max_value step ptr v fmt).map Prod.snd
  | .button label alignment => some (ui_button m ctx label alignment).2

/-- One call of the public interface after `ui_init`. -/
inductive ui_op where
  | update_mouse_pos (x y : ℚ) : ui_op
  | update_mouse_button (button : ui_button_state) : ui_op
  | begin_frame (delta_time : ℚ) : ui_op
  | begin_window (name : c_string) (x y width height : ℚ) : ui_op
  | newline : ui_op
  | widget (call : widget_call) : ui_op
  | end_window : ui_op
  | end_frame : ui_op

/-- The context after one call, `none` when an assertion fails. -/
def ui_op.run (m : libm) (ctx : ui_context) : ui_op → Option ui_context
  | .update_mouse_pos x y => some (ui_update_mouse_pos ctx x y)
  | .update_mouse_button button => some (ui_update_mouse_button ctx button)
  | .begin_frame delta_time => some (ui_begin_frame ctx delta_time)
  | .begin_window name x y width height => ui_begin_window ctx name x y width height
  | .newline => ui_newline ctx
  | .widget call => call.run m ctx
  | .end_window => ui_end_window ctx
  | .end_frame => ui_end_frame ctx

/-- The context after a sequence of calls, `none` as soon as an assertion fails. -/
def run_ops (m : libm) : ui_context → List ui_op → Option ui_context
  | c, [] => some c
  | c, op :: ops => (op.run m c).bind fun c => run_ops m c ops

/-- Every window of the table is at least as wide as its title plus the padding on both sides
and at least as high as one line of text plus the padding on both sides. -/
def windows_min (ctx : ui_context) : Prop :=
  ∀ w, w ∈ ctx.windows →
    w.width ≥ ctx.renderer.text_width w.name.bytes + 2 * ctx.padding ∧
    w.height ≥ ctx.font_height + 2 * ctx.padding

/-- The string "Hi" at caller address 40: 32 pixels wide for the host of the fixtures. -/
def demo_hi : c_string := ⟨.user 40, [72, 105]⟩

/-- The context `c'` differs from `c` at most in the slots a widget call may write: animation,
hover, drag target and offset, renderer log, scratch buffer and layout cursor. -/
def widget_step (c c' : ui_context) : Prop :=
  ∃ a h d o log sb l, c' =
    { c with animation := a, hover := h, dragging_object := d, dragging_offset := o,
             renderer := { c.renderer with user := log }, string_buffer := sb, layout := l }

/-- A frame of calls that touches every kind of operation: the button is pressed inside the
title bar of "W", the window is opened, widgets are drawn, the window and the frame are
closed. -/
def demo_ops : List ui_op :=
  [.update_mouse_button .button_pressed, .update_mouse_pos 120 30, .begin_frame (1 / 60),
    .begin_window demo_name 0 0 1032 300, .widget (.text .align_left [72, 105]), .newline,
    .widget (.toggle demo_label (.user 5) false),
    .widget (.segmented demo_entries4 4 (.user 4) 2),
    .widget (.slider demo_label 0 100 5 (.user 3) 40 demo_fmt),
    .widget (.button demo_ok .align_left), .end_window, .end_frame,
    .update_mouse_pos 300 200, .begin_frame (1 / 60),
    .begin_window demo_name 0 0 1032 300, .end_window, .end_frame]

/-- The call `ui_newline` repeated `k` times. -/
def ui_newlines : Nat → ui_context → Option ui_context
  | 0, c => some c
  | k + 1, c => (ui_newline c).bind (ui_newlines k)

/-- The calls `ui_begin_window` issues for a window `w` that the call does not move: border,
title bar, background, title text and clip rectangle. -/
def window_draws (c : ui_context) (w : ui_window) : List draw_call :=
  let title := title_rect0 c w
  let x := w.pos.x + c.padding + c.padding
  let y := title.y + title.height + c.padding
  let width := w.width - c.padding * 2 - 2 * c.padding
  [.draw_box w.pos.x w.pos.y w.width w.height c.corners_radius c.colors.window_border,
    .draw_box title.x title.y title.width title.height c.corners_radius c.colors.title_bg,
    .draw_box (w.pos.x + c.padding) y (w.width - c.padding * 2)
      (w.height - title.height - c.padding * 3) 0 c.colors.window_bg,
    draw_align_text_call c.renderer.text_width title w.name.bytes c.colors.title_text
      .align_center,
    .set_clip_rect (to_uint16 (max x 0)) (to_uint16 (max y 0)) (to_uint16 (x + width + 1 / 2))
      (to_uint16 (w.pos.y + w.height - c.padding + 1 / 2))]

/-- The calls of `ui_toggle` while no animation runs for the toggle: label, track in the
colour of the value, thumb at the place of the value, inflated under the mouse. -/
def toggle_draws (c : ui_context) (label : c_string) (v : Bool) : List draw_call :=
  let track := toggle_track_rect c
  let thumb : ui_rect :=
    { x := if v then track.x + c.font_height - 2 else track.x + 2
      y := track.y + 2
      width := c.font_height - 4
      height := c.font_height - 4 }
  let thumb := if in_rect track c.mouse_pos then expand_rect thumb 1 else thumb
  [draw_align_text_call c.renderer.text_width c.layout label.bytes c.colors.text .align_left,
    .draw_box track.x track.y track.width track.height (track.height * (1 / 2))
      (if v then c.colors.accent else c.colors.separator),
    .draw_box thumb.x thumb.y thumb.width thumb.height (thumb.height * (1 / 2)) c.colors.text]

/-- The fill colour of `ui_button` while the mouse button state is idle and no animation runs
for the button: the hover tween when the mouse is over the button and the hover slot is the
button's, the widget background otherwise. -/
def button_color (c : ui_context) (label : c_string) (alignment : ui_text_alignment) : Nat :=
  if in_rect (button_rect0 c label alignment) c.mouse_pos = true ∧
      c.hover.widget = label.addr then
    lerp_color c.colors.widget_bg c.colors.widget_hover c.hover.t
  else c.colors.widget_bg

/-- The pointer by which the engine recognises a widget across frames: the cell of a toggle,
of a segmented control or of a slider, the label of a button; the other widgets have none. -/
def widget_call.identity : widget_call → Option Ptr
  | .toggle _ ptr _ => some ptr
  | .segmented _ _ selected _ => some selected
  | .slider _ _ _ _ ptr _ _ => some ptr
  | .button label _ => some label.addr
  | _ => none

/-- The draw calls issued between context `c` and the later context `c'`. -/
def draws_since (c c' : ui_context) : List draw_call :=
  c'.renderer.user.drop c.renderer.user.length

/-- Byte `k` of a packed colour, counted from the least significant: 0 is R, 1 is G, 2 is B and
3 is A. -/
def color_byte (c k : Nat) : Nat := (c >>> (8 * k)) &&& 0xFF

/-- The 32-bit FNV-1a hash as the standard describes it: start from the offset basis
0x811C9DC5 and, for each byte in order, xor the byte into the hash and multiply by the prime
0x01000193 modulo 2^32. -/
def fnv1a_32 : List Nat → Nat → Nat
  | [], hash => hash
  | byte :: rest, hash => fnv1a_32 rest (((hash ^^^ byte) * 0x01000193) % 4294967296)

/-- The animation `ui_toggle` installs when a click sets the toggle at `value` to `v`, with
its progress at `t`. -/
def toggle_animation (ctx : ui_context) (value : Ptr) (v : Bool) (t : ℚ) : ui_animation :=
  { value_key0 := (toggle_track_rect ctx).x + ctx.font_height - 2
    value_key1 := (toggle_track_rect ctx).x + 2
    color_key0 := ctx.colors.accent
    color_key1 := ctx.colors.separator
    key0_to_key1 := !v
    t := t
    widget := value }

/-- The progress of the animation slot and of the hover slot are both in [0, 1]. -/
def timers_in_range (c : ui_context) : Prop :=
  0 ≤ c.animation.t ∧ c.animation.t ≤ 1 ∧ 0 ≤ c.hover.t ∧ c.hover.t ≤ 1

/-- What a widget with identity `id` may do to the two slots: it leaves the animation slot as
it is, or, at a pressed edge, installs an animation of its own with progress 0; it leaves the
hover progress as it is or resets it to 0; it leaves the button state as it is. -/
def timer_step (c c' : ui_context) (id : Option Ptr) : Prop :=
  c'.mouse_button = c.mouse_button ∧
  (c'.animation = c.animation ∨
    (c.mouse_button = .button_pressed ∧ c'.animation.t = 0 ∧ some c'.animation.widget = id)) ∧
  (c'.hover.t = c.hover.t ∨ c'.hover.t = 0)

/-! ## Theorems -/

/-! ### Support -/

@[simp] theorem emit_window (ctx : ui_context) (c : draw_call) : (emit ctx c).window = ctx.window := rfl

theorem draw_align_text_eq (ctx : ui_context) (rect : ui_rect) (text : List Nat) (color : Nat)
    (a : ui_text_alignment) :
    ∃ c, draw_align_text ctx rect text color a = emit ctx c := by
  unfold draw_align_text
  split_ifs <;> exact ⟨_, rfl⟩

theorem ui_newline_eq (ctx : ui_context) (w : ui_window) (h : ctx.window = some w) :
    ui_newline ctx = some { ctx with layout :=
      { ctx.layout with x := w.pos.x + ctx.padding * 2
                        y := ctx.layout.y + ctx.row_height
                        width := w.width - ctx.padding * 4 } } := by
  unfold ui_newline
  rw [h]

@[simp] theorem draw_align_text_window (ctx : ui_context) (rect : ui_rect) (text : List Nat)
    (color : Nat) (a : ui_text_alignment) :
    (draw_align_text ctx rect text color a).window = ctx.window := by
  obtain ⟨c, h⟩ := draw_align_text_eq ctx rect text color a
  rw [h]; rfl

@[simp] theorem draw_align_text_padding (ctx : ui_context) (rect : ui_rect) (text : List Nat)
    (color : Nat) (a : ui_text_alignment) :
    (draw_align_text ctx rect text color a).padding = ctx.padding := by
  obtain ⟨c, h⟩ := draw_align_text_eq ctx rect text color a
  rw [h]; rfl

theorem slider_pointer_frame (ctx : ui_context) (value : Ptr) (tr th : ui_rect) (x : ℚ) :
    ∃ d o a, slider_pointer ctx value tr th x =
      { ctx with dragging_object := d, dragging_offset := o, animation := a } := by
  unfold slider_pointer
  simp only []
  split_ifs <;> exact ⟨_, _, _, rfl⟩

@[simp] theorem slider_pointer_window (ctx : ui_context) (value : Ptr) (tr th : ui_rect) (x : ℚ) :
    (slider_pointer ctx value tr th x).window = ctx.window := by
  obtain ⟨d, o, a, h⟩ := slider_pointer_frame ctx value tr th x
  rw [h]; rfl

theorem draw_align_text_emit (ctx : ui_context) (rect : ui_rect) (text : List Nat) (color : Nat)
    (a : ui_text_alignment) :
    draw_align_text ctx rect text color a
      = emit ctx (draw_align_text_call ctx.renderer.text_width rect text color a) := by
  unfold draw_align_text draw_align_text_call
  cases a <;> simp

theorem segmented_cell_eq (entries : List c_string) (selected : Ptr) (st : segmented_state)
    (i : Nat) :
    ∃ log, segmented_cell entries selected st i =
      { ctx := { st.ctx with
          animation :=
            if (in_rect { st.seg_rect with y := st.seg_rect.y + st.ctx.padding } st.ctx.mouse_pos
                && decide (st.ctx.mouse_button = .button_pressed)) = true then
              { value_key0 := st.ctx.layout.x + st.seg_rect.width * (st.selected : ℚ)
                value_key1 := st.ctx.layout.x + st.seg_rect.width * (i : ℚ)
                color_key0 := 0
                color_key1 := 0
                key0_to_key1 := false
                t := 0
                widget := selected }
            else st.ctx.animation
          renderer := { st.ctx.renderer with user := log } }
        selected :=
          if (in_rect { st.seg_rect with y := st.seg_rect.y + st.ctx.padding } st.ctx.mouse_pos
              && decide (st.ctx.mouse_button = .button_pressed)) = true then i
          else st.selected
        seg_rect := { st.seg_rect with x := st.seg_rect.x + st.seg_rect.width } } := by
  unfold segmented_cell
  simp only [draw_align_text_emit]
  split_ifs <;> exact ⟨_, rfl⟩

theorem segmented_loop_eq (entries : List c_string) (selected : Ptr) (c0 : ui_context)
    (s : Nat) (r0 : ui_rect) (k : Nat) :
    ∃ log, (List.range k).foldl (segmented_cell entries selected)
        { ctx := c0, selected := s, seg_rect := r0 } =
      { ctx := { c0 with
          animation := (seg_scan
            (fun j => in_rect { r0 with x := r0.x + r0.width * (j : ℚ), y := r0.y + c0.padding }
              c0.mouse_pos && decide (c0.mouse_button = .button_pressed))
            (fun s j => ⟨c0.layout.x + r0.width * (s : ℚ), c0.layout.x + r0.width * (j : ℚ), 0, 0,
              false, 0, selected⟩) s c0.animation k).2
          renderer := { c0.renderer with user := log } }
        selected := (seg_scan
            (fun j => in_rect { r0 with x := r0.x + r0.width * (j : ℚ), y := r0.y + c0.padding }
              c0.mouse_pos && decide (c0.mouse_button = .button_pressed))
            (fun s j => ⟨c0.layout.x + r0.width * (s : ℚ), c0.layout.x + r0.width * (j : ℚ), 0, 0,
              false, 0, selected⟩) s c0.animation k).1
        seg_rect := { r0 with x := r0.x + r0.width * (k : ℚ) } } := by
  induction k with
  | zero =>
    refine ⟨c0.renderer.user, ?_⟩
    simp [seg_scan]
  | succ k ih =>
    obtain ⟨log, h⟩ := ih
    rw [List.range_succ, List.foldl_append, h]
    obtain ⟨log2, h2⟩ := segmented_cell_eq entries selected _ k
    simp only [List.foldl_cons, List.foldl_nil]
    rw [h2]
    refine ⟨log2, ?_⟩
    simp only [seg_scan]
    split_ifs with hh
    · simp only [Nat.cast_succ, mul_add, mul_one, add_assoc]
    · simp only [Nat.cast_succ, mul_add, mul_one, add_assoc]

/-- C1 (fails on the code): with `min = 0`, `max = 100`, `step = 60`, `*value = 100` and an idle
mouse, `ui_slider` rounds 100 to the multiple 120 of the step and stores it: the value written
back is above `max`. -/
theorem ui_slider_step_leaves_range :
    (demo_open.bind fun c => ui_slider c demo_label 0 100 60 (.user 3) 100 demo_fmt).map Prod.fst
      = some 120 ∧ (120 : ℚ) > 100 := by
  decide!

/-- C6: in an open window `ui_toggle` returns; `*value` is flipped (once) exactly when the
button state is the pressed edge and the mouse is inside the track rectangle; in that case the
animation slot becomes `value_key0 = track.x + font_height - 2`, `value_key1 = track.x + 2`,
`color_key0 = accent`, `color_key1 = separator`, `key0_to_key1 = (new value is false)`, `t = 0`,
identity the `value` pointer; otherwise `*value` and the animation slot are unchanged. -/
theorem ui_toggle_flips_on_press_in_track (ctx : ui_context) (w : ui_window) (label : c_string)
    (value : Ptr) (v : Bool) (hw : ctx.window = some w) :
    ∃ v' c', ui_toggle ctx label value v = some (v', c') ∧
      (v' ≠ v ↔
        (ctx.mouse_button = .button_pressed ∧
          in_rect (toggle_track_rect ctx) ctx.mouse_pos = true)) ∧
      ((ctx.mouse_button = .button_pressed ∧
          in_rect (toggle_track_rect ctx) ctx.mouse_pos = true) →
        v' = !v ∧
        c'.animation =
          { value_key0 := (toggle_track_rect ctx).x + ctx.font_height - 2
            value_key1 := (toggle_track_rect ctx).x + 2
            color_key0 := ctx.colors.accent
            color_key1 := ctx.colors.separator
            key0_to_key1 := decide (v' = false)
            t := 0
            widget := value }) ∧
      (¬ (ctx.mouse_button = .button_pressed ∧
          in_rect (toggle_track_rect ctx) ctx.mouse_pos = true) →
        v' = v ∧ c'.animation = ctx.animation) := by
  unfold ui_toggle
  simp only [draw_align_text_emit]
  by_cases hp : ctx.mouse_button = .button_pressed ∧
      in_rect (toggle_track_rect ctx) ctx.mouse_pos = true
  · have hhit : (in_rect (toggle_track_rect (emit ctx (draw_align_text_call ctx.renderer.text_width
        ctx.layout label.bytes ctx.colors.text .align_left)))
        (emit ctx (draw_align_text_call ctx.renderer.text_width ctx.layout label.bytes
          ctx.colors.text .align_left)).mouse_pos
        && decide ((emit ctx (draw_align_text_call ctx.renderer.text_width ctx.layout label.bytes
          ctx.colors.text .align_left)).mouse_button = .button_pressed)) = true := by
      simpa [emit, toggle_track_rect] using ⟨hp.2, hp.1⟩
    simp only [hhit, if_true]
    rw [ui_newline_eq _ w (by simpa [ui_context.window, emit] using hw)]
    refine ⟨_, _, rfl, ?_, ?_, ?_⟩
    · simp [hp]
    · intro _
      refine ⟨rfl, ?_⟩
      cases v <;> rfl
    · intro h; exact absurd hp h
  · have hhit : (in_rect (toggle_track_rect (emit ctx (draw_align_text_call ctx.renderer.text_width
        ctx.layout label.bytes ctx.colors.text .align_left)))
        (emit ctx (draw_align_text_call ctx.renderer.text_width ctx.layout label.bytes
          ctx.colors.text .align_left)).mouse_pos
        && decide ((emit ctx (draw_align_text_call ctx.renderer.text_width ctx.layout label.bytes
          ctx.colors.text .align_left)).mouse_button = .button_pressed)) = false := by
      rw [Bool.eq_false_iff]
      intro h
      apply hp
      simpa [emit, toggle_track_rect, and_comm] using h
    simp only [hhit]
    rw [ui_newline_eq _ w (by simpa [ui_context.window, emit] using hw)]
    refine ⟨_, _, rfl, ?_, ?_, ?_⟩
    · simp [hp]
    · intro h; exact absurd h hp
    · intro _; exact ⟨rfl, rfl⟩

/-- Witness for C6: scenario S2, a click inside the track of a toggle that is off. -/
theorem ui_toggle_flips_on_press_in_track_witness :
    ∃ c', ui_toggle (demo_press 960 80) demo_label (.user 5) false = some (true, c') ∧
      c'.animation.widget = .user 5 ∧ c'.animation.key0_to_key1 = false := by
  obtain ⟨v', c', h, _, hflip, _⟩ := ui_toggle_flips_on_press_in_track (demo_press 960 80) demo_w
    demo_label (.user 5) false (by decide!)
  obtain ⟨hv, ha⟩ := hflip ⟨by decide!, by decide!⟩
  subst hv
  exact ⟨c', h, by rw [ha], by rw [ha]; rfl⟩

/-! ### Button -/

/-- C7: `ui_button` returns true exactly when no animation is running for the label, the mouse
is inside the button rectangle and the button state is the pressed edge; exactly in that case
it overwrites the animation slot, with identity the label pointer, `t = 0` and zero keys, and
otherwise it leaves the slot as it was; and in any later context whose animation slot still
carries this label it returns false, wherever the mouse is and whatever the button state. -/
theorem ui_button_clicked_iff (m : libm) (ctx : ui_context) (label : c_string)
    (alignment : ui_text_alignment) :
    ((ui_button m ctx label alignment).1 = true ↔
      (ctx.animation.widget ≠ label.addr ∧
        in_rect (button_rect0 ctx label alignment) ctx.mouse_pos = true ∧
        ctx.mouse_button = .button_pressed)) ∧
    ((ui_button m ctx label alignment).1 = true →
      (ui_button m ctx label alignment).2.animation = ⟨0, 0, 0, 0, false, 0, label.addr⟩) ∧
    ((ui_button m ctx label alignment).1 = false →
      (ui_button m ctx label alignment).2.animation = ctx.animation) ∧
    (∀ (later : ui_context) (alignment2 : ui_text_alignment),
      later.animation.widget = label.addr →
        (ui_button m later label alignment2).1 = false ∧
        (ui_button m later label alignment2).2.animation = later.animation) := by
  refine ⟨?_, ?_, ?_, ?_⟩
  · unfold ui_button
    simp only []
    split_ifs <;> simp_all
  · unfold ui_button
    simp only []
    split_ifs <;> simp_all [emit]
  · unfold ui_button
    simp only []
    split_ifs <;> simp_all [emit]
  · intro later alignment2 h
    unfold ui_button
    simp only [h, if_true]
    exact ⟨trivial, rfl⟩

/-- Witness for C7: scenario S5, the click on "OK" returns true and installs the animation for
the label; one frame later the animation is still running and a new press inside the button
returns false. -/
theorem ui_button_clicked_iff_witness :
    (ui_button demo_libm (demo_press 30 80) demo_ok .align_left).1 = true ∧
      (ui_button demo_libm (demo_press 30 80) demo_ok .align_left).2.animation
        = ⟨0, 0, 0, 0, false, 0, .user 20⟩ ∧
      demo_s5_frame2.mouse_button = .button_pressed ∧
      in_rect (button_rect0 demo_s5_frame2 demo_ok .align_left) demo_s5_frame2.mouse_pos = true ∧
      (ui_button demo_libm demo_s5_frame2 demo_ok .align_left).1 = false := by
  obtain ⟨hiff, hset, _, hlater⟩ :=
    ui_button_clicked_iff demo_libm (demo_press 30 80) demo_ok .align_left
  have hc := hiff.mpr ⟨by decide!, by decide!, by decide!⟩
  exact ⟨hc, hset hc, by decide!, by decide!,
    (hlater demo_s5_frame2 .align_left (by decide!)).1⟩

/-- C8 (fails on the code): a button held down is not painted in the accent colour.  On the
frame after a press, with the button still held (`mouse_down`), the button state idle, no
animation for the label and the mouse inside the button "OK", `ui_button` emits the border box,
then the body box in `widget_bg` (0xFFF4E6D8), not in `accent` (0xFFE68B3E), then the label.
In general, when no animation runs for the label, the mouse is inside and the state is not the
pressed edge, the body colour is the hover tween or `widget_bg`, whatever `mouse_down` is: the
test that selects the accent colour also requires the animation to be the label's, which the
enclosing branch has excluded. -/
theorem ui_button_held_is_not_accent :
    ((demo_held 30 80).mouse_down = true ∧
      (demo_held 30 80).mouse_button = .button_idle ∧
      (demo_held 30 80).animation.widget ≠ demo_ok.addr ∧
      in_rect (button_rect0 (demo_held 30 80) demo_ok .align_left) (demo_held 30 80).mouse_pos
        = true ∧
      (demo_held 30 80).colors.accent = 0xFFE68B3E ∧
      (ui_button demo_libm (demo_held 30 80) demo_ok .align_left).2.renderer.user.drop
          (demo_held 30 80).renderer.user.length =
        [.draw_box 16 64 48 48 16 0x40553E2C, .draw_box 17 65 46 46 16 0xFFF4E6D8,
          .draw_text 24 64 [79, 75] 0xFF553E2C]) ∧
    (∀ (m : libm) (ctx : ui_context) (label : c_string) (alignment : ui_text_alignment),
      ctx.animation.widget ≠ label.addr →
      in_rect (button_rect0 ctx label alignment) ctx.mouse_pos = true →
      ctx.mouse_button ≠ .button_pressed →
      (ui_button m ctx label alignment).2.renderer.user = ctx.renderer.user ++
        [.draw_box (button_rect0 ctx label alignment).x (button_rect0 ctx label alignment).y
            (button_rect0 ctx label alignment).width (button_rect0 ctx label alignment).height
            ctx.corners_radius ctx.colors.separator,
          .draw_box (expand_rect (button_rect0 ctx label alignment) (-1)).x
            (expand_rect (button_rect0 ctx label alignment) (-1)).y
            (expand_rect (button_rect0 ctx label alignment) (-1)).width
            (expand_rect (button_rect0 ctx label alignment) (-1)).height
            ctx.corners_radius
            (if ctx.hover.widget = label.addr then
              lerp_color ctx.colors.widget_bg ctx.colors.widget_hover ctx.hover.t
            else ctx.colors.widget_bg),
          .draw_text ((button_rect0 ctx label alignment).x + ctx.padding)
            ((button_rect0 ctx label alignment).y
              + (button_rect0 ctx label alignment).height * (1 / 2) - ctx.font_height + ctx.padding)
            label.bytes ctx.colors.text]) := by
  refine ⟨by decide!, ?_⟩
  intro m ctx label alignment ha hin hnp
  unfold ui_button
  simp only []
  split_ifs <;> simp_all [emit]

/-! ### Windows -/

theorem ui_vec2_sub_sub (m p : ui_vec2) : ui_vec2_sub m (ui_vec2_sub m p) = p := by
  cases m; cases p
  simp [ui_vec2_sub]

/-- Effect of the second part of `ui_begin_window` on the window table, the current window and
the drag slot. -/
theorem begin_window_body_effect (c : ui_context) (i : Nat) (w0 : ui_window) :
    ∃ w', (begin_window_body c i w0).windows = c.windows.set i w' ∧
      (begin_window_body c i w0).current_window = c.current_window ∧
      w'.id = w0.id ∧ w'.name = w0.name ∧ w'.width = w0.width ∧ w'.height = w0.height ∧
      ((c.mouse_down = false ∨ c.dragging_object ≠ .window i) → w'.pos = w0.pos) ∧
      ((c.mouse_button = .button_pressed ∧ in_rect (title_rect0 c w0) c.mouse_pos = true) →
        w'.pos = w0.pos ∧ (begin_window_body c i w0).dragging_object = .window i ∧
        (begin_window_body c i w0).dragging_offset = ui_vec2_sub c.mouse_pos w0.pos) ∧
      ((c.mouse_button = .button_idle ∧ c.mouse_down = true ∧ c.dragging_object = .window i) →
        w'.pos = ui_vec2_sub c.mouse_pos c.dragging_offset ∧
        (begin_window_body c i w0).dragging_object = .window i ∧
        (begin_window_body c i w0).dragging_offset = c.dragging_offset) := by
  unfold begin_window_body
  simp only [draw_align_text_emit, emit]
  split_ifs <;> refine ⟨_, rfl, rfl, rfl, rfl, rfl, rfl, ?_, ?_, ?_⟩ <;>
    simp_all [ui_vec2_sub_sub]

theorem find_window_some (id : Nat) (ws : List ui_window) (i c : Nat) :
    ∃ j, find_window id ws i (some c) = some j := by
  induction ws generalizing i c with
  | nil => exact ⟨c, rfl⟩
  | cons w ws ih =>
    unfold find_window
    split_ifs
    · exact ih (i + 1) i
    · exact ih (i + 1) c

theorem find_window_found (id : Nat) (ws : List ui_window) (i : Nat) (cur : Option Nat) (j : Nat)
    (h : find_window id ws i cur = some j) :
    cur = some j ∨ ∃ k w, ws[k]? = some w ∧ w.id = id ∧ j = i + k := by
  induction ws generalizing i cur with
  | nil => left; simpa [find_window] using h
  | cons w ws ih =>
    unfold find_window at h
    rcases ih (i + 1) _ h with h1 | ⟨k, w1, hk, hid, hj⟩
    · split_ifs at h1 with hw
      · right
        refine ⟨0, w, by simp, hw, ?_⟩
        simpa using (Option.some.inj h1).symm
      · left; exact h1
    · right
      refine ⟨k + 1, w1, by simpa using hk, hid, by omega⟩

theorem find_window_exists (id : Nat) (ws : List ui_window) (i : Nat) (cur : Option Nat)
    (h : ∃ w, w ∈ ws ∧ w.id = id) :
    ∃ j, find_window id ws i cur = some j := by
  induction ws generalizing i cur with
  | nil =>
    obtain ⟨w, hw, _⟩ := h
    exact absurd hw (List.not_mem_nil w)
  | cons w ws ih =>
    unfold find_window
    obtain ⟨w1, hmem, hid⟩ := h
    rcases List.mem_cons.mp hmem with heq | htail
    · subst heq
      rw [if_pos hid]
      exact find_window_some id ws (i + 1) i
    · exact ih (i + 1) _ ⟨w1, htail, hid⟩

theorem window_entry_index (ctx c : ui_context) (name : c_string) (x y width height : ℚ)
    (i : Nat) (w0 : ui_window) (he : window_entry ctx name x y width height = some (c, i, w0)) :
    i < c.windows.length ∧ c.windows[i]? = some w0 ∧ c.mouse_pos = ctx.mouse_pos ∧
      c.mouse_button = ctx.mouse_button ∧ c.mouse_down = ctx.mouse_down ∧
      c.dragging_object = ctx.dragging_object ∧ c.dragging_offset = ctx.dragging_offset ∧
      c.padding = ctx.padding ∧ c.row_height = ctx.row_height := by
  unfold window_entry at he
  by_cases hcur : ctx.current_window ≠ none
  · rw [if_pos hcur] at he
    exact absurd he (by simp)
  · rw [if_neg hcur] at he
    simp only [] at he
    cases hf : find_window (ui_hash name.bytes) ctx.windows 0 none with
    | some j =>
      rw [hf] at he
      simp only [] at he
      cases hw : ctx.windows.get? j with
      | none =>
        rw [hw] at he
        exact absurd he (by simp)
      | some w =>
        rw [hw] at he
        simp only [Option.some.injEq, Prod.mk.injEq] at he
        obtain ⟨rfl, rfl, rfl⟩ := he
        have hw2 : ctx.windows[j]? = some w := by simpa using hw
        exact ⟨(List.getElem?_eq_some.mp hw2).1, hw2, rfl, rfl, rfl, rfl, rfl, rfl, rfl⟩
    | none =>
      rw [hf] at he
      simp only [] at he
      by_cases hn : ctx.num_windows < MAX_WINDOWS
      · rw [if_pos hn] at he
        simp only [Option.some.injEq, Prod.mk.injEq] at he
        obtain ⟨rfl, rfl, rfl⟩ := he
        exact ⟨by simp [ui_context.num_windows], by simp [ui_context.num_windows], rfl, rfl, rfl,
          rfl, rfl, rfl, rfl⟩
      · rw [if_neg hn] at he
        exact absurd he (by simp)

/-! #### Title-bar drag -/

/-- C14: `ui_begin_frame dt` sets `animation.t` to `min 1 (animation.t + dt / 0.2)` and
`hover.t` to `min 1 (hover.t + dt / 0.1)`, sets the current window to null, and changes nothing
else: the identities, keys, colours and direction of the animation slot, the hover identity,
the mouse state, the drag target and offset, the window table, the layout cursor, the metrics,
the palette, the renderer and the scratch buffer are the same. -/
theorem ui_begin_frame_effect (ctx : ui_context) (dt : ℚ) :
    (ui_begin_frame ctx dt).animation.t = min 1 (ctx.animation.t + dt / (2 / 10)) ∧
    (ui_begin_frame ctx dt).hover.t = min 1 (ctx.hover.t + dt / (1 / 10)) ∧
    (ui_begin_frame ctx dt).current_window = none ∧
    (ui_begin_frame ctx dt).animation.widget = ctx.animation.widget ∧
    (ui_begin_frame ctx dt).animation.value_key0 = ctx.animation.value_key0 ∧
    (ui_begin_frame ctx dt).animation.value_key1 = ctx.animation.value_key1 ∧
    (ui_begin_frame ctx dt).animation.color_key0 = ctx.animation.color_key0 ∧
    (ui_begin_frame ctx dt).animation.color_key1 = ctx.animation.color_key1 ∧
    (ui_begin_frame ctx dt).animation.key0_to_key1 = ctx.animation.key0_to_key1 ∧
    (ui_begin_frame ctx dt).hover.widget = ctx.hover.widget ∧
    (ui_begin_frame ctx dt).mouse_pos = ctx.mouse_pos ∧
    (ui_begin_frame ctx dt).mouse_button = ctx.mouse_button ∧
    (ui_begin_frame ctx dt).mouse_down = ctx.mouse_down ∧
    (ui_begin_frame ctx dt).dragging_object = ctx.dragging_object ∧
    (ui_begin_frame ctx dt).dragging_offset = ctx.dragging_offset ∧
    (ui_begin_frame ctx dt).windows = ctx.windows ∧
    (ui_begin_frame ctx dt).layout = ctx.layout ∧
    (ui_begin_frame ctx dt).font_height = ctx.font_height ∧
    (ui_begin_frame ctx dt).row_height = ctx.row_height ∧
    (ui_begin_frame ctx dt).padding = ctx.padding ∧
    (ui_begin_frame ctx dt).corners_radius = ctx.corners_radius ∧
    (ui_begin_frame ctx dt).colors = ctx.colors ∧
    (ui_begin_frame ctx dt).renderer.user = ctx.renderer.user ∧
    (ui_begin_frame ctx dt).renderer.text_width = ctx.renderer.text_width ∧
    (ui_begin_frame ctx dt).string_buffer = ctx.string_buffer := by
  refine ⟨?_, ?_, rfl, rfl, rfl, rfl, rfl, rfl, rfl, rfl, rfl, rfl, rfl, rfl, rfl, rfl, rfl, rfl,
    rfl, rfl, rfl, rfl, rfl, rfl, rfl⟩
  · simp [ui_begin_frame, ANIMATION_DURATION]
  · simp [ui_begin_frame, HOVER_DURATION]

/-- C15: with no window open `ui_end_frame` returns; it sets the mouse button state to idle; the
animation identity becomes null exactly when `animation.t ≥ 1` and is otherwise left as it was;
the animation keys, colours and direction, `mouse_down`, the mouse position, the drag target and
offset, the hover slot, the window table and the layout cursor are unchanged. -/
theorem ui_end_frame_effect (ctx : ui_context) (hcur : ctx.current_window = none) :
    ∃ c', ui_end_frame ctx = some c' ∧
      c'.mouse_button = .button_idle ∧
      c'.animation.widget = (if ctx.animation.t ≥ 1 then Ptr.null else ctx.animation.widget) ∧
      c'.animation.value_key0 = ctx.animation.value_key0 ∧
      c'.animation.value_key1 = ctx.animation.value_key1 ∧
      c'.animation.color_key0 = ctx.animation.color_key0 ∧
      c'.animation.color_key1 = ctx.animation.color_key1 ∧
      c'.animation.key0_to_key1 = ctx.animation.key0_to_key1 ∧
      c'.mouse_down = ctx.mouse_down ∧
      c'.mouse_pos = ctx.mouse_pos ∧
      c'.dragging_object = ctx.dragging_object ∧
      c'.dragging_offset = ctx.dragging_offset ∧
      c'.hover = ctx.hover ∧
      c'.windows = ctx.windows ∧
      c'.layout = ctx.layout := by
  unfold ui_end_frame
  simp only [hcur, ne_eq, not_true_eq_false, if_false]
  split_ifs with ht
  · exact ⟨_, rfl, rfl, rfl, rfl, rfl, rfl, rfl, rfl, rfl, rfl, rfl, rfl, rfl, rfl, rfl⟩
  · exact ⟨_, rfl, rfl, rfl, rfl, rfl, rfl, rfl, rfl, rfl, rfl, rfl, rfl, rfl, rfl, rfl⟩

/-- Witness for C15: the frame that created window "W" has been closed; its animation slot is
idle with `t = 0`, so the identity is left as it was. -/
theorem ui_end_frame_effect_witness :
    ∃ c', ui_end_frame demo_closed = some c' ∧ c'.mouse_button = .button_idle ∧
      c'.animation.widget = demo_closed.animation.widget := by
  obtain ⟨c', h, hb, hw, _⟩ := ui_end_frame_effect demo_closed (by decide!)
  refine ⟨c', h, hb, ?_⟩
  rw [hw, if_neg (by decide!)]

theorem find_window_none_iff (id : Nat) (ws : List ui_window) :
    find_window id ws 0 none = none ↔ ∀ w, w ∈ ws → w.id ≠ id := by
  constructor
  · intro h w hw hid
    obtain ⟨j, hj⟩ := find_window_exists id ws 0 none ⟨w, hw, hid⟩
    rw [h] at hj
    exact absurd hj (by simp)
  · intro h
    cases hf : find_window id ws 0 none with
    | none => rfl
    | some j =>
      rcases find_window_found id ws 0 none j hf with h1 | ⟨k, w, hk, hid, _⟩
      · exact absurd h1 (by simp)
      · exact absurd hid (h w (List.getElem?_mem hk))

/-- The lookup of `ui_begin_window` for an unknown name while the table has a free entry: a
new entry is appended, with the requested position and the size raised to the minimum. -/
theorem window_entry_new (ctx : ui_context) (name : c_string) (x y width height : ℚ)
    (hcur : ctx.current_window = none)
    (hall : ∀ w, w ∈ ctx.windows → w.id ≠ ui_hash name.bytes)
    (hn : ctx.num_windows < MAX_WINDOWS) :
    ∃ c w0, window_entry ctx name x y width height = some (c, ctx.num_windows, w0) ∧
      c.windows = ctx.windows ++ [w0] ∧ w0.name = name ∧ w0.id = ui_hash name.bytes ∧
      w0.pos = ⟨x, y⟩ ∧
      w0.width = max width (ctx.renderer.text_width name.bytes + ctx.padding * 2) ∧
      w0.height = max height (ctx.font_height + ctx.padding * 2) := by
  have hf := (find_window_none_iff (ui_hash name.bytes) ctx.windows).mpr hall
  refine ⟨{ ctx with
      windows := ctx.windows ++ [(⟨name, ui_hash name.bytes, ⟨x, y⟩,
        max width (ctx.renderer.text_width name.bytes + ctx.padding * 2),
        max height (ctx.font_height + ctx.padding * 2)⟩ : ui_window)]
      current_window := some ctx.num_windows },
    ⟨name, ui_hash name.bytes, ⟨x, y⟩,
      max width (ctx.renderer.text_width name.bytes + ctx.padding * 2),
      max height (ctx.font_height + ctx.padding * 2)⟩, ?_, rfl, rfl, rfl, rfl, rfl, rfl⟩
  unfold window_entry
  simp only [hcur, ne_eq, not_true_eq_false, if_false, hf, hn, if_true]

/-! #### Contract of `ui_begin_window` -/

theorem draw_step_refl (c : ui_context) : draw_step c c :=
  ⟨_, _, _, _, _, _, rfl⟩

theorem draw_step_trans {c X Y : ui_context} (h1 : draw_step c X) (h2 : draw_step X Y) :
    draw_step c Y := by
  obtain ⟨a, h, d, o, log, sb, rfl⟩ := h1
  obtain ⟨a2, h2', d2, o2, log2, sb2, rfl⟩ := h2
  exact ⟨_, _, _, _, _, _, rfl⟩

theorem draw_step_emit {c X : ui_context} (x : draw_call) (h : draw_step c X) :
    draw_step c (emit X x) :=
  draw_step_trans h ⟨_, _, _, _, _, _, rfl⟩

theorem draw_step_vsnprintf {c X : ui_context} (f : List Nat) (h : draw_step c X) :
    draw_step c (vsnprintf X f) :=
  draw_step_trans h ⟨_, _, _, _, _, _, rfl⟩

theorem draw_step_animation {c X : ui_context} (a : ui_animation) (h : draw_step c X) :
    draw_step c { X with animation := a } :=
  draw_step_trans h ⟨_, _, _, _, _, _, rfl⟩

theorem draw_step_hover {c X : ui_context} (hv : ui_hover) (h : draw_step c X) :
    draw_step c { X with hover := hv } :=
  draw_step_trans h ⟨_, _, _, _, _, _, rfl⟩

theorem draw_step_drag {c X : ui_context} (d : Ptr) (o : ui_vec2) (h : draw_step c X) :
    draw_step c { X with dragging_object := d, dragging_offset := o } :=
  draw_step_trans h ⟨_, _, _, _, _, _, rfl⟩

theorem draw_step_drag_object {c X : ui_context} (d : Ptr) (h : draw_step c X) :
    draw_step c { X with dragging_object := d } :=
  draw_step_trans h ⟨_, _, _, _, _, _, rfl⟩

theorem draw_step_ite {c X Y : ui_context} (p : Prop) [Decidable p] (h1 : draw_step c X)
    (h2 : draw_step c Y) : draw_step c (if p then X else Y) := by
  split_ifs
  · exact h1
  · exact h2

theorem draw_step_window {c X : ui_context} (h : draw_step c X) : X.window = c.window := by
  obtain ⟨a, hv, d, o, log, sb, rfl⟩ := h
  rfl

theorem ui_newline_draw_step {c X : ui_context} {w : ui_window} (hw : c.window = some w)
    (hs : draw_step c X) :
    ui_newline X = some { X with layout := newline_layout c w } := by
  obtain ⟨a, h, d, o, log, sb, rfl⟩ := hs
  refine ui_newline_eq _ w ?_
  exact hw

theorem ui_newline_none {c X : ui_context} (hw : c.window = none) (hs : draw_step c X) :
    ui_newline X = none := by
  unfold ui_newline
  rw [draw_step_window hs, hw]

theorem window_none_of_current {c : ui_context} (h : c.current_window = none) :
    c.window = none := by
  simp [ui_context.window, h]

theorem current_of_window {c : ui_context} {w : ui_window} (h : c.window = some w) :
    c.current_window ≠ none := by
  intro hn
  rw [window_none_of_current hn] at h
  exact absurd h (by simp)

theorem ui_text_step (ctx : ui_context) (alignment : ui_text_alignment) (formatted : List Nat)
    (hcur : ctx.current_window ≠ none) :
    ∃ X, ui_text ctx alignment formatted = some X ∧ draw_step ctx X := by
  unfold ui_text
  rw [if_neg hcur]
  simp only [draw_align_text_emit]
  exact ⟨_, rfl, draw_step_emit _ (draw_step_vsnprintf _ (draw_step_refl ctx))⟩

/-- Shape of `ui_separator` when a window is open: draw calls, then `ui_newline`. -/
theorem ui_separator_pre (ctx : ui_context) (hcur : ctx.current_window ≠ none) :
    ∃ X, draw_step ctx X ∧ ui_separator ctx = ui_newline X := by
  unfold ui_separator
  rw [if_neg hcur]
  exact ⟨_, draw_step_emit _ (draw_step_refl ctx), rfl⟩

theorem ui_separator_step (ctx : ui_context) (w : ui_window) (hw : ctx.window = some w) :
    ∃ X, draw_step ctx X ∧ ui_separator ctx = some { X with layout := newline_layout ctx w } := by
  obtain ⟨X, hs, h⟩ := ui_separator_pre ctx (current_of_window hw)
  exact ⟨X, hs, by rw [h, ui_newline_draw_step hw hs]⟩

/-- Shape of `ui_value` when a window is open: draw calls, then `ui_newline`. -/
theorem ui_value_pre (ctx : ui_context) (label : c_string) (formatted : List Nat)
    (hcur : ctx.current_window ≠ none) :
    ∃ X, draw_step ctx X ∧ ui_value ctx label formatted = ui_newline X := by
  unfold ui_value
  rw [if_neg hcur]
  simp only [draw_align_text_emit]
  generalize hX : emit (emit (emit (emit _ _) _) _) _ = X
  have hs : draw_step ctx X := by
    rw [← hX]
    exact draw_step_emit _ (draw_step_emit _ (draw_step_emit _ (draw_step_emit _
      (draw_step_vsnprintf _ (draw_step_refl ctx)))))
  exact ⟨X, hs, rfl⟩

theorem ui_value_step (ctx : ui_context) (w : ui_window) (label : c_string)
    (formatted : List Nat) (hw : ctx.window = some w) :
    ∃ X, draw_step ctx X ∧
      ui_value ctx label formatted = some { X with layout := newline_layout ctx w } := by
  obtain ⟨X, hs, h⟩ := ui_value_pre ctx label formatted (current_of_window hw)
  exact ⟨X, hs, by rw [h, ui_newline_draw_step hw hs]⟩

/-- Shape of `ui_toggle`: draw calls and interaction, then `ui_newline`. -/
theorem ui_toggle_pre (ctx : ui_context) (label : c_string) (value : Ptr) (v : Bool) :
    ∃ X v', draw_step ctx X ∧
      ui_toggle ctx label value v = (ui_newline X).map (fun c => (v', c)) := by
  unfold ui_toggle
  simp only [draw_align_text_emit]
  generalize hX : emit (emit _ _) _ = X
  have hs : draw_step ctx X := by
    rw [← hX]
    refine draw_step_emit _ (draw_step_emit _ (draw_step_ite _ ?_ ?_))
    · exact draw_step_animation _ (draw_step_emit _ (draw_step_refl ctx))
    · exact draw_step_emit _ (draw_step_refl ctx)
  exact ⟨X, _, hs, rfl⟩

theorem ui_toggle_step (ctx : ui_context) (w : ui_window) (label : c_string) (value : Ptr)
    (v : Bool) (hw : ctx.window = some w) :
    ∃ X v', draw_step ctx X ∧
      ui_toggle ctx label value v = some (v', { X with layout := newline_layout ctx w }) := by
  obtain ⟨X, v', hs, h⟩ := ui_toggle_pre ctx label value v
  exact ⟨X, v', hs, by rw [h, ui_newline_draw_step hw hs]; rfl⟩

theorem segmented_loop_step (entries : List c_string) (selected : Ptr) (c0 : ui_context)
    (s : Nat) (r0 : ui_rect) (k : Nat) :
    draw_step c0 ((List.range k).foldl (segmented_cell entries selected)
      { ctx := c0, selected := s, seg_rect := r0 }).ctx := by
  obtain ⟨log, h⟩ := segmented_loop_eq entries selected c0 s r0 k
  rw [h]
  exact ⟨_, _, _, _, _, _, rfl⟩

/-- Shape of `ui_segmented`: draw calls and interaction, then `ui_newline`. -/
theorem ui_segmented_pre (ctx : ui_context) (entries : List c_string)
    (num_entries : Nat) (selected : Ptr) (sel : Nat) :
    ∃ X sel', draw_step ctx X ∧
      ui_segmented ctx entries num_entries selected sel
        = (ui_newline X).map (fun c => (sel', c)) := by
  unfold ui_segmented
  simp only []
  generalize hc0 : (if sel < num_entries then _ else _ : ui_context) = c0
  have h0 : draw_step ctx c0 := by
    rw [← hc0]
    exact draw_step_ite _ (draw_step_emit _ (draw_step_emit _ (draw_step_refl ctx)))
      (draw_step_emit _ (draw_step_refl ctx))
  have hs := draw_step_trans h0 (segmented_loop_step entries selected c0 sel
    ⟨ctx.layout.x, ctx.layout.y, ctx.layout.width / (num_entries : ℚ), ctx.font_height⟩
    num_entries)
  exact ⟨_, _, hs, rfl⟩

theorem ui_segmented_step (ctx : ui_context) (w : ui_window) (entries : List c_string)
    (num_entries : Nat) (selected : Ptr) (sel : Nat) (hw : ctx.window = some w) :
    ∃ X sel', draw_step ctx X ∧
      ui_segmented ctx entries num_entries selected sel
        = some (sel', { X with layout := newline_layout ctx w }) := by
  obtain ⟨X, sel', hs, h⟩ := ui_segmented_pre ctx entries num_entries selected sel
  exact ⟨X, sel', hs, by rw [h, ui_newline_draw_step hw hs]; rfl⟩

theorem slider_pointer_step (ctx : ui_context) (value : Ptr) (tr th : ui_rect) (x : ℚ) :
    draw_step ctx (slider_pointer ctx value tr th x) := by
  obtain ⟨d, o, a, h⟩ := slider_pointer_frame ctx value tr th x
  rw [h]
  exact ⟨_, _, _, _, _, _, rfl⟩

/-- Shape of the second row of `ui_slider`: draw calls and interaction, then `ui_newline`. -/
theorem slider_row2_pre (c : ui_context) (min_value max_value step : ℚ)
    (value : Ptr) (v : ℚ) :
    ∃ X v', draw_step c X ∧
      slider_row2 c min_value max_value step value v = (ui_newline X).map (fun c => (v', c)) := by
  unfold slider_row2
  simp only []
  generalize hX : emit (slider_pointer _ _ _ _ _) _ = X
  have hs : draw_step c X := by
    rw [← hX]
    exact draw_step_emit _ (draw_step_trans (draw_step_emit _ (draw_step_refl c))
      (slider_pointer_step _ _ _ _ _))
  exact ⟨X, _, hs, rfl⟩

theorem slider_row2_step (c : ui_context) (w : ui_window) (min_value max_value step : ℚ)
    (value : Ptr) (v : ℚ) (hw : c.window = some w) :
    ∃ X v', draw_step c X ∧
      slider_row2 c min_value max_value step value v
        = some (v', { X with layout := newline_layout c w }) := by
  obtain ⟨X, v', hs, h⟩ := slider_row2_pre c min_value max_value step value v
  exact ⟨X, v', hs, by rw [h, ui_newline_draw_step hw hs]; rfl⟩

/-- Shape of the first row of `ui_slider` when `max > min`: draw calls, `ui_newline`, then the
second row. -/
theorem ui_slider_pre (ctx : ui_context) (label : c_string)
    (min_value max_value step : ℚ) (value : Ptr) (v : ℚ) (fmt : ℚ → List Nat)
    (hmm : max_value > min_value) :
    ∃ X1, draw_step ctx X1 ∧
      ui_slider ctx label min_value max_value step value v fmt
        = (ui_newline X1).bind fun c =>
            slider_row2 c min_value max_value step value (clamp_float min_value max_value v) := by
  unfold ui_slider
  rw [if_neg (not_not.mpr hmm)]
  simp only [draw_align_text_emit]
  generalize hX1 : emit (emit (vsnprintf _ _) _) _ = X1
  have hs1 : draw_step ctx X1 := by
    rw [← hX1]
    exact draw_step_emit _ (draw_step_emit _ (draw_step_vsnprintf _ (draw_step_refl ctx)))
  refine ⟨X1, hs1, ?_⟩
  cases ui_newline X1 <;> rfl

theorem ui_slider_step (ctx : ui_context) (w : ui_window) (label : c_string)
    (min_value max_value step : ℚ) (value : Ptr) (v : ℚ) (fmt : ℚ → List Nat)
    (hw : ctx.window = some w) (hmm : max_value > min_value) :
    ∃ X v', draw_step ctx X ∧
      ui_slider ctx label min_value max_value step value v fmt
        = some (v', { X with
            layout := newline_layout ({ ctx with layout := newline_layout ctx w }) w }) := by
  obtain ⟨X1, hs1, hpre⟩ := ui_slider_pre ctx label min_value max_value step value v fmt hmm
  rw [hpre, ui_newline_draw_step hw hs1]
  simp only [Option.some_bind]
  obtain ⟨a, h, d, o, log, sb, rfl⟩ := hs1
  obtain ⟨X2, v', hs2, h2⟩ := slider_row2_step
    { ctx with animation := a, hover := h, dragging_object := d, dragging_offset := o,
               renderer := { ctx.renderer with user := log }, string_buffer := sb,
               layout := newline_layout ctx w }
    w min_value max_value step value (clamp_float min_value max_value v) hw
  obtain ⟨a2, hv2, d2, o2, log2, sb2, rfl⟩ := hs2
  refine ⟨{ ctx with animation := a2, hover := hv2, dragging_object := d2, dragging_offset := o2,
                     renderer := { ctx.renderer with user := log2 }, string_buffer := sb2 },
    v', ⟨_, _, _, _, _, _, rfl⟩, ?_⟩
  exact h2

theorem ui_button_step (m : libm) (ctx : ui_context) (label : c_string)
    (alignment : ui_text_alignment) :
    draw_step ctx (ui_button m ctx label alignment).2 := by
  unfold ui_button
  simp only []
  split_ifs <;>
    first
    | exact draw_step_emit _ (draw_step_emit _ (draw_step_emit _ (draw_step_refl ctx)))
    | exact draw_step_emit _ (draw_step_emit _ (draw_step_emit _
        (draw_step_animation _ (draw_step_refl ctx))))
    | exact draw_step_emit _ (draw_step_emit _ (draw_step_emit _
        (draw_step_hover _ (draw_step_refl ctx))))

theorem draw_step_layout {c X : ui_context} (h : draw_step c X) : X.layout = c.layout := by
  obtain ⟨a, hv, d, o, log, sb, rfl⟩ := h
  rfl

/-! ### Layout cursor -/

/-- C17: inside an open window, `ui_text` and `ui_button` return and leave the layout cursor
rectangle unchanged; `ui_value`, `ui_toggle`, `ui_segmented` and `ui_separator` return and
leave it exactly as one `ui_newline` leaves it (y advanced by `row_height`); `ui_slider` (with
`max > min`) returns and leaves it as two `ui_newline` calls leave it (y advanced by
`2 * row_height`). -/
theorem widgets_layout_effect (m : libm) (ctx : ui_context) (w : ui_window)
    (hw : ctx.window = some w) :
    (∀ alignment formatted, ∃ c', ui_text ctx alignment formatted = some c' ∧
      c'.layout = ctx.layout) ∧
    (∀ label alignment, (ui_button m ctx label alignment).2.layout = ctx.layout) ∧
    ∃ cn, ui_newline ctx = some cn ∧ cn.layout.y = ctx.layout.y + ctx.row_height ∧
      (∀ label formatted, ∃ c', ui_value ctx label formatted = some c' ∧
        c'.layout = cn.layout) ∧
      (∀ label value v, ∃ v' c', ui_toggle ctx label value v = some (v', c') ∧
        c'.layout = cn.layout) ∧
      (∀ entries num_entries selected sel, ∃ sel' c',
        ui_segmented ctx entries num_entries selected sel = some (sel', c') ∧
        c'.layout = cn.layout) ∧
      (∃ c', ui_separator ctx = some c' ∧ c'.layout = cn.layout) ∧
      ∃ cn2, ui_newline cn = some cn2 ∧ cn2.layout.y = ctx.layout.y + 2 * ctx.row_height ∧
        ∀ label min_value max_value step value v fmt, max_value > min_value →
          ∃ v' c', ui_slider ctx label min_value max_value step value v fmt = some (v', c') ∧
            c'.layout = cn2.layout := by
  have hcur : ctx.current_window ≠ none := by
    intro h; simp [ui_context.window, h] at hw
  refine ⟨?_, ?_, _, ui_newline_eq ctx w hw, rfl, ?_, ?_, ?_, ?_, ?_⟩
  · intro alignment formatted
    obtain ⟨X, h, hs⟩ := ui_text_step ctx alignment formatted hcur
    exact ⟨X, h, draw_step_layout hs⟩
  · intro label alignment
    exact draw_step_layout (ui_button_step m ctx label alignment)
  · intro label formatted
    obtain ⟨X, _, h⟩ := ui_value_step ctx w label formatted hw
    exact ⟨_, h, rfl⟩
  · intro label value v
    obtain ⟨X, v', _, h⟩ := ui_toggle_step ctx w label value v hw
    exact ⟨v', _, h, rfl⟩
  · intro entries num_entries selected sel
    obtain ⟨X, sel', _, h⟩ := ui_segmented_step ctx w entries num_entries selected sel hw
    exact ⟨sel', _, h, rfl⟩
  · obtain ⟨X, _, h⟩ := ui_separator_step ctx w hw
    exact ⟨_, h, rfl⟩
  · refine ⟨_, ui_newline_eq _ w hw, ?_, ?_⟩
    · show ctx.layout.y + ctx.row_height + ctx.row_height = ctx.layout.y + 2 * ctx.row_height
      ring
    · intro label min_value max_value step value v fmt hmm
      obtain ⟨X, v', _, h⟩ :=
        ui_slider_step ctx w label min_value max_value step value v fmt hw hmm
      exact ⟨v', _, h, rfl⟩

/-- Witness for C17: the open window "W" of the fixtures; a text call keeps the cursor and a
separator moves it down by one row of 48 pixels. -/
theorem widgets_layout_effect_witness :
    (∃ c', ui_text (demo_press 100 80) .align_left [72, 105] = some c' ∧
      c'.layout = (demo_press 100 80).layout) ∧
    (∃ c', ui_separator (demo_press 100 80) = some c' ∧ c'.layout.y = 64 + 48) := by
  obtain ⟨ht, _, cn, hn, hy, _, _, _, ⟨c', hsep, hl⟩, _⟩ :=
    widgets_layout_effect demo_libm (demo_press 100 80) demo_w (by decide!)
  refine ⟨ht .align_left [72, 105], c', hsep, ?_⟩
  rw [hl, hy]
  decide!

/-! ### Assertions of the widgets -/

/-- C13 (fails on the code for `ui_button`): with no window open, `ui_text`, `ui_newline`,
`ui_separator`, `ui_value`, `ui_toggle`, `ui_segmented`, `ui_slider` and `ui_end_window` fail
an assertion, and `ui_end_frame` fails while a window is open; but `ui_button` contains no
assertion and never reads the current window: after the frame that created "W" has been
closed, `ui_button` for "OK" returns false and emits its three draw calls. -/
theorem ui_button_runs_without_window :
    (demo_closed.current_window = none ∧
      (ui_button demo_libm demo_closed demo_ok .align_left).1 = false ∧
      (ui_button demo_libm demo_closed demo_ok .align_left).2.renderer.user.drop
          demo_closed.renderer.user.length =
        [.draw_box 16 64 48 48 16 0x40553E2C, .draw_box 17 65 46 46 16 0xFFF4E6D8,
          .draw_text 24 64 [79, 75] 0xFF553E2C]) ∧
    (∀ ctx : ui_context, ctx.current_window = none →
      (∀ alignment formatted, ui_text ctx alignment formatted = none) ∧
      ui_newline ctx = none ∧
      ui_separator ctx = none ∧
      (∀ label formatted, ui_value ctx label formatted = none) ∧
      (∀ label value v, ui_toggle ctx label value v = none) ∧
      (∀ entries num_entries selected sel,
        ui_segmented ctx entries num_entries selected sel = none) ∧
      (∀ label min_value max_value step value v fmt,
        ui_slider ctx label min_value max_value step value v fmt = none) ∧
      ui_end_window ctx = none) ∧
    (∀ ctx : ui_context, ctx.current_window ≠ none → ui_end_frame ctx = none) := by
  refine ⟨by decide!, ?_, ?_⟩
  · intro ctx hcur
    have hw : ctx.window = none := window_none_of_current hcur
    refine ⟨?_, ?_, ?_, ?_, ?_, ?_, ?_, ?_⟩
    · intro alignment formatted
      simp [ui_text, hcur]
    · exact ui_newline_none hw (draw_step_refl ctx)
    · simp [ui_separator, hcur]
    · intro label formatted
      simp [ui_value, hcur]
    · intro label value v
      obtain ⟨X, v', hs, h⟩ := ui_toggle_pre ctx label value v
      rw [h, ui_newline_none hw hs]
      rfl
    · intro entries num_entries selected sel
      obtain ⟨X, sel', hs, h⟩ := ui_segmented_pre ctx entries num_entries selected sel
      rw [h, ui_newline_none hw hs]
      rfl
    · intro label min_value max_value step value v fmt
      by_cases hmm : max_value > min_value
      · obtain ⟨X, hs, h⟩ := ui_slider_pre ctx label min_value max_value step value v fmt hmm
        rw [h, ui_newline_none hw hs]
        rfl
      · unfold ui_slider
        rw [if_pos hmm]
    · simp [ui_end_window, hcur]
  · intro ctx hcur
    simp [ui_end_frame, hcur]

/-! ### Effect of every call on the context -/

theorem widget_step_of_draw_step {c X : ui_context} (h : draw_step c X) : widget_step c X := by
  obtain ⟨a, hv, d, o, log, sb, rfl⟩ := h
  exact ⟨_, _, _, _, _, _, _, rfl⟩

theorem widget_step_trans {c X Y : ui_context} (h1 : widget_step c X) (h2 : widget_step X Y) :
    widget_step c Y := by
  obtain ⟨a, h, d, o, log, sb, l, rfl⟩ := h1
  obtain ⟨a2, h2', d2, o2, log2, sb2, l2, rfl⟩ := h2
  exact ⟨_, _, _, _, _, _, _, rfl⟩

theorem widget_step_newline {X c' : ui_context} (h : ui_newline X = some c') :
    widget_step X c' := by
  unfold ui_newline at h
  cases hw : X.window with
  | none => rw [hw] at h; exact absurd h (by simp)
  | some w =>
    rw [hw] at h
    simp only [Option.some.injEq] at h
    rw [← h]
    exact ⟨_, _, _, _, _, _, _, rfl⟩

theorem widget_step_draw_newline {c X c' : ui_context} (hs : draw_step c X)
    (h : ui_newline X = some c') : widget_step c c' :=
  widget_step_trans (widget_step_of_draw_step hs) (widget_step_newline h)

theorem widget_step_map_newline {α : Type} {c X c' : ui_context} (v : α) (hs : draw_step c X)
    (h : ((ui_newline X).map fun c => (v, c)).map Prod.snd = some c') : widget_step c c' := by
  cases hn : ui_newline X with
  | none => rw [hn] at h; exact absurd h (by simp)
  | some cn =>
    rw [hn] at h
    simp only [Option.map_some', Option.some.injEq] at h
    rw [← h]
    exact widget_step_draw_newline hs hn

/-- Every widget call that returns changes at most the slots of `widget_step`. -/
theorem widget_call_run_step (m : libm) (c c' : ui_context) (call : widget_call)
    (h : call.run m c = some c') : widget_step c c' := by
  cases call with
  | text alignment formatted =>
    by_cases hcur : c.current_window = none
    · simp [widget_call.run, ui_text, hcur] at h
    · obtain ⟨X, hX, hs⟩ := ui_text_step c alignment formatted hcur
      simp only [widget_call.run] at h
      rw [hX] at h
      rw [← Option.some.inj h]
      exact widget_step_of_draw_step hs
  | value label formatted =>
    by_cases hcur : c.current_window = none
    · simp [widget_call.run, ui_value, hcur] at h
    · obtain ⟨X, hs, hX⟩ := ui_value_pre c label formatted hcur
      simp only [widget_call.run] at h
      rw [hX] at h
      exact widget_step_draw_newline hs h
  | separator =>
    by_cases hcur : c.current_window = none
    · simp [widget_call.run, ui_separator, hcur] at h
    · obtain ⟨X, hs, hX⟩ := ui_separator_pre c hcur
      simp only [widget_call.run] at h
      rw [hX] at h
      exact widget_step_draw_newline hs h
  | toggle label ptr v =>
    obtain ⟨X, v', hs, hX⟩ := ui_toggle_pre c label ptr v
    simp only [widget_call.run] at h
    rw [hX] at h
    exact widget_step_map_newline v' hs h
  | segmented entries num_entries selected sel =>
    obtain ⟨X, sel', hs, hX⟩ := ui_segmented_pre c entries num_entries selected sel
    simp only [widget_call.run] at h
    rw [hX] at h
    exact widget_step_map_newline sel' hs h
  | slider label min_value max_value step ptr v fmt =>
    simp only [widget_call.run] at h
    by_cases hmm : max_value > min_value
    · obtain ⟨X1, hs1, hX1⟩ := ui_slider_pre c label min_value max_value step ptr v fmt hmm
      rw [hX1] at h
      cases hn : ui_newline X1 with
      | none => rw [hn] at h; exact absurd h (by simp)
      | some c1 =>
        rw [hn] at h
        simp only [Option.some_bind] at h
        obtain ⟨X2, v', hs2, hX2⟩ := slider_row2_pre c1 min_value max_value step ptr
          (clamp_float min_value max_value v)
        rw [hX2] at h
        exact widget_step_trans (widget_step_draw_newline hs1 hn)
          (widget_step_map_newline v' hs2 h)
    · unfold ui_slider at h
      rw [if_pos hmm] at h
      exact absurd h (by simp)
  | button label alignment =>
    simp only [widget_call.run, Option.some.injEq] at h
    rw [← h]
    exact widget_step_of_draw_step (ui_button_step m c label alignment)

/-- The second part of `ui_begin_window` in closed form: entry `i` keeps everything but its
position `p`, the cursor x follows `p`, the cursor y follows the position before the call. -/
theorem begin_window_body_state (c : ui_context) (i : Nat) (w0 : ui_window) :
    ∃ p d o log, begin_window_body c i w0 =
      { c with windows := c.windows.set i { w0 with pos := p }
               dragging_object := d
               dragging_offset := o
               layout := ⟨p.x + c.padding + c.padding,
                 w0.pos.y + c.padding + c.row_height + c.padding,
                 w0.width - c.padding * 2 - 2 * c.padding, c.row_height⟩
               renderer := { c.renderer with user := log } } ∧
      ((c.mouse_down = false ∨ c.dragging_object ≠ .window i) → p = w0.pos) ∧
      (c.mouse_button = .button_idle → d = c.dragging_object ∧ o = c.dragging_offset) ∧
      ((c.mouse_button = .button_idle ∧ c.mouse_down = true ∧ c.dragging_object = .window i) →
        p = ui_vec2_sub c.mouse_pos c.dragging_offset) := by
  unfold begin_window_body
  simp only [draw_align_text_emit, emit, title_rect0]
  split_ifs <;> refine ⟨_, _, _, _, rfl, ?_, ?_, ?_⟩ <;> simp_all [ui_vec2_sub_sub]

/-- The two outcomes of the first part of `ui_begin_window`: an existing entry with the id of
the name, or a new last entry with the requested position and the size raised to the minimum. -/
theorem window_entry_cases (ctx c : ui_context) (name : c_string) (x y width height : ℚ)
    (i : Nat) (w0 : ui_window) (he : window_entry ctx name x y width height = some (c, i, w0)) :
    ctx.current_window = none ∧
    ((c = { ctx with current_window := some i } ∧ ctx.windows[i]? = some w0 ∧
        w0.id = ui_hash name.bytes) ∨
      (c = { ctx with windows := ctx.windows ++ [w0], current_window := some i } ∧
        i = ctx.windows.length ∧
        w0 = ⟨name, ui_hash name.bytes, ⟨x, y⟩,
          max width (ctx.renderer.text_width name.bytes + ctx.padding * 2),
          max height (ctx.font_height + ctx.padding * 2)⟩ ∧
        (∀ w, w ∈ ctx.windows → w.id ≠ ui_hash name.bytes))) := by
  unfold window_entry at he
  by_cases hcur : ctx.current_window ≠ none
  · rw [if_pos hcur] at he
    exact absurd he (by simp)
  · rw [if_neg hcur] at he
    refine ⟨not_not.mp hcur, ?_⟩
    simp only [] at he
    cases hf : find_window (ui_hash name.bytes) ctx.windows 0 none with
    | some j =>
      rw [hf] at he
      simp only [] at he
      cases hw : ctx.windows.get? j with
      | none =>
        rw [hw] at he
        exact absurd he (by simp)
      | some w =>
        rw [hw] at he
        simp only [Option.some.injEq, Prod.mk.injEq] at he
        obtain ⟨rfl, rfl, rfl⟩ := he
        have hw2 : ctx.windows[j]? = some w := by simpa using hw
        left
        refine ⟨rfl, hw2, ?_⟩
        rcases find_window_found _ _ _ _ _ hf with h1 | ⟨k, w1, hk, hid, hjk⟩
        · exact absurd h1 (by simp)
        · have hjk2 : j = k := by omega
          subst hjk2
          rw [hw2] at hk
          rw [Option.some.inj hk]
          exact hid
    | none =>
      rw [hf] at he
      simp only [] at he
      by_cases hn : ctx.num_windows < MAX_WINDOWS
      · rw [if_pos hn] at he
        simp only [Option.some.injEq, Prod.mk.injEq] at he
        obtain ⟨rfl, rfl, rfl⟩ := he
        right
        exact ⟨rfl, rfl, rfl, (find_window_none_iff _ _).mp hf⟩
      · rw [if_neg hn] at he
        exact absurd he (by simp)

theorem ui_begin_window_inv (ctx c' : ui_context) (name : c_string) (x y width height : ℚ)
    (h : ui_begin_window ctx name x y width height = some c') :
    ∃ c i w0, window_entry ctx name x y width height = some (c, i, w0) ∧
      c' = begin_window_body c i w0 := by
  unfold ui_begin_window at h
  obtain ⟨⟨c, i, w0⟩, he, hb⟩ := Option.map_eq_some'.mp h
  exact ⟨c, i, w0, he, hb.symm⟩

theorem windows_min_widget_step {c c' : ui_context} (hs : widget_step c c')
    (hmin : windows_min c) : windows_min c' := by
  obtain ⟨a, h, d, o, log, sb, l, rfl⟩ := hs
  exact hmin

theorem mouse_down_widget_step {c c' : ui_context} (hs : widget_step c c') :
    c'.mouse_down = c.mouse_down := by
  obtain ⟨a, h, d, o, log, sb, l, rfl⟩ := hs
  rfl

theorem ui_begin_window_windows_min (ctx c' : ui_context) (name : c_string)
    (x y width height : ℚ) (hmin : windows_min ctx)
    (h : ui_begin_window ctx name x y width height = some c') : windows_min c' := by
  obtain ⟨c, i, w0, he, rfl⟩ := ui_begin_window_inv ctx c' name x y width height h
  obtain ⟨p, d, o, log, hb, _⟩ := begin_window_body_state c i w0
  obtain ⟨_, hcase⟩ := window_entry_cases ctx c name x y width height i w0 he
  rw [hb]
  have hw0 : w0.width ≥ ctx.renderer.text_width w0.name.bytes + 2 * ctx.padding ∧
      w0.height ≥ ctx.font_height + 2 * ctx.padding := by
    rcases hcase with ⟨_, hget, _⟩ | ⟨_, _, hnew, _⟩
    · exact hmin w0 (List.getElem?_mem hget)
    · rw [hnew]
      constructor
      · show max width (ctx.renderer.text_width name.bytes + ctx.padding * 2)
          ≥ ctx.renderer.text_width name.bytes + 2 * ctx.padding
        rw [mul_comm 2 ctx.padding]
        exact le_max_right _ _
      · show max height (ctx.font_height + ctx.padding * 2) ≥ ctx.font_height + 2 * ctx.padding
        rw [mul_comm 2 ctx.padding]
        exact le_max_right _ _
  have hold : ∀ w, w ∈ c.windows →
      w.width ≥ ctx.renderer.text_width w.name.bytes + 2 * ctx.padding ∧
      w.height ≥ ctx.font_height + 2 * ctx.padding := by
    intro w hw
    rcases hcase with ⟨hc, _, _⟩ | ⟨hc, _, _, _⟩
    · rw [hc] at hw
      exact hmin w hw
    · rw [hc] at hw
      rcases List.mem_append.mp hw with h1 | h1
      · exact hmin w h1
      · rw [List.mem_singleton.mp h1]
        exact hw0
  have hstat : c.renderer.text_width = ctx.renderer.text_width ∧ c.padding = ctx.padding ∧
      c.font_height = ctx.font_height := by
    rcases hcase with ⟨hc, _, _⟩ | ⟨hc, _, _, _⟩ <;> subst hc <;> exact ⟨rfl, rfl, rfl⟩
  intro w hw
  show w.width ≥ c.renderer.text_width w.name.bytes + 2 * c.padding ∧
    w.height ≥ c.font_height + 2 * c.padding
  rw [hstat.1, hstat.2.1, hstat.2.2]
  rcases List.mem_or_eq_of_mem_set hw with h1 | h1
  · exact hold w h1
  · rw [h1]
    exact hw0

/-- Every call that returns keeps the minimum size of every window of the table. -/
theorem ui_op_run_windows_min (m : libm) (c c' : ui_context) (op : ui_op)
    (hmin : windows_min c) (h : op.run m c = some c') : windows_min c' := by
  cases op with
  | update_mouse_pos x y =>
    simp only [ui_op.run, Option.some.injEq] at h
    rw [← h]; exact hmin
  | update_mouse_button button =>
    simp only [ui_op.run, Option.some.injEq] at h
    rw [← h]; exact hmin
  | begin_frame dt =>
    simp only [ui_op.run, Option.some.injEq] at h
    rw [← h]; exact hmin
  | begin_window name x y width height =>
    exact ui_begin_window_windows_min c c' name x y width height hmin h
  | newline =>
    exact windows_min_widget_step (widget_step_newline h) hmin
  | widget call =>
    exact windows_min_widget_step (widget_call_run_step m c c' call h) hmin
  | end_window =>
    simp only [ui_op.run, ui_end_window] at h
    split_ifs at h
    rw [← Option.some.inj h]; exact hmin
  | end_frame =>
    simp only [ui_op.run, ui_end_frame] at h
    split_ifs at h <;> (rw [← Option.some.inj h]; exact hmin)

/-- Every call that returns, other than a button update, keeps `mouse_down`. -/
theorem ui_op_run_mouse_down (m : libm) (c c' : ui_context) (op : ui_op)
    (hop : ∀ b, op ≠ .update_mouse_button b) (h : op.run m c = some c') :
    c'.mouse_down = c.mouse_down := by
  cases op with
  | update_mouse_pos x y =>
    simp only [ui_op.run, Option.some.injEq] at h
    rw [← h]; rfl
  | update_mouse_button button => exact absurd rfl (hop button)
  | begin_frame dt =>
    simp only [ui_op.run, Option.some.injEq] at h
    rw [← h]; rfl
  | begin_window name x y width height =>
    obtain ⟨ce, i, w0, he, rfl⟩ := ui_begin_window_inv c c' name x y width height h
    obtain ⟨p, d, o, log, hb, _⟩ := begin_window_body_state ce i w0
    obtain ⟨_, _, _, _, hmd, _⟩ := window_entry_index c ce name x y width height i w0 he
    rw [hb]
    exact hmd
  | newline => exact mouse_down_widget_step (widget_step_newline h)
  | widget call => exact mouse_down_widget_step (widget_call_run_step m c c' call h)
  | end_window =>
    simp only [ui_op.run, ui_end_window] at h
    split_ifs at h
    rw [← Option.some.inj h]; rfl
  | end_frame =>
    simp only [ui_op.run, ui_end_frame] at h
    split_ifs at h <;> (have h2 := Option.some.inj h; subst h2; rfl)

theorem run_ops_windows_min (m : libm) (ops : List ui_op) (c c' : ui_context)
    (hmin : windows_min c) (h : run_ops m c ops = some c') : windows_min c' := by
  induction ops generalizing c with
  | nil =>
    simp only [run_ops, Option.some.injEq] at h
    rw [← h]; exact hmin
  | cons op ops ih =>
    simp only [run_ops] at h
    cases h1 : op.run m c with
    | none => rw [h1] at h; exact absurd h (by simp)
    | some c1 =>
      rw [h1] at h
      exact ih c1 (ui_op_run_windows_min m c c1 op hmin h1) h

theorem run_ops_mouse_down (m : libm) (ops : List ui_op) (c c' : ui_context)
    (hdown : c.mouse_down = true)
    (hops : ∀ b, ui_op.update_mouse_button b ∈ ops → b = .button_pressed)
    (h : run_ops m c ops = some c') : c'.mouse_down = true := by
  induction ops generalizing c with
  | nil =>
    simp only [run_ops, Option.some.injEq] at h
    rw [← h]; exact hdown
  | cons op ops ih =>
    simp only [run_ops] at h
    cases h1 : op.run m c with
    | none => rw [h1] at h; exact absurd h (by simp)
    | some c1 =>
      rw [h1] at h
      have hrest : ∀ b, ui_op.update_mouse_button b ∈ ops → b = .button_pressed :=
        fun b hb => hops b (List.mem_cons_of_mem op hb)
      refine ih c1 ?_ hrest h
      by_cases hop : ∃ b, op = .update_mouse_button b
      · obtain ⟨b, rfl⟩ := hop
        have hb := hops b (List.mem_cons_self _ _)
        subst hb
        simp only [ui_op.run, Option.some.injEq] at h1
        rw [← h1]
        rfl
      · rw [ui_op_run_mouse_down m c c1 op (fun b hb => hop ⟨b, hb⟩) h1]
        exact hdown

/-! ### Window size -/

/-- C11: a window created by `ui_begin_window name x y w h` (no window open, unknown name, a
free entry) is stored with `width = max w (text_width name + 2 * padding)` and
`height = max h (font_height + 2 * padding)`; the table is empty after `ui_init`, and after
every sequence of later calls that return, every window of the table still has
`width ≥ text_width name + 2 * padding` and `height ≥ font_height + 2 * padding`; with
`font_height = 32` and a title 32 wide, a request of 10 by 10 stores 48 by 48. -/
theorem windows_keep_minimum_size (m : libm) :
    (∀ (ctx : ui_context) (name : c_string) (x y width height : ℚ),
      ctx.current_window = none →
      (∀ w, w ∈ ctx.windows → w.id ≠ ui_hash name.bytes) →
      ctx.num_windows < 16 →
      ∃ c' w1, ui_begin_window ctx name x y width height = some c' ∧
        c'.windows[ctx.num_windows]? = some w1 ∧
        w1.width = max width (ctx.renderer.text_width name.bytes + 2 * ctx.padding) ∧
        w1.height = max height (ctx.font_height + 2 * ctx.padding)) ∧
    (∀ d : ui_def, windows_min (ui_init d)) ∧
    (∀ (ctx c' : ui_context) (ops : List ui_op),
      windows_min ctx → run_ops m ctx ops = some c' → windows_min c') ∧
    (demo_init.renderer.text_width demo_hi.bytes = 32 ∧ demo_init.font_height = 32 ∧
      ((ui_begin_window demo_init demo_hi 0 0 10 10).bind fun c =>
        c.windows[0]?.map fun w => (w.width, w.height)) = some (48, 48) ∧
      (run_ops demo_libm demo_init demo_ops).map (fun c => c.windows.length) = some 1) := by
  refine ⟨?_, ?_, ?_, by decide!⟩
  · intro ctx name x y width height hcur hall hn
    obtain ⟨c, w0, he, hws, _, _, _, hwd, hht⟩ :=
      window_entry_new ctx name x y width height hcur hall hn
    obtain ⟨w1, hws1, _, _, _, hwd1, hht1, _⟩ := begin_window_body_effect c ctx.num_windows w0
    refine ⟨begin_window_body c ctx.num_windows w0, w1, ?_, ?_, ?_, ?_⟩
    · unfold ui_begin_window
      rw [he]
      rfl
    · rw [hws1, hws]
      simp [ui_context.num_windows]
    · rw [hwd1, hwd, mul_comm 2 ctx.padding]
    · rw [hht1, hht, mul_comm 2 ctx.padding]
  · intro d w hw
    exact absurd hw (List.not_mem_nil w)
  · intro ctx c' ops hmin h
    exact run_ops_windows_min m ops ctx c' hmin h

/-! ### Mouse button -/

/-- C16 (as stated, fails on the code): after `ui_update_mouse_button pressed`, a button
update that reports idle makes `mouse_down` false although no release was reported. -/
theorem mouse_down_dropped_by_idle_update :
    (ui_update_mouse_button demo_init .button_pressed).mouse_down = true ∧
    (run_ops demo_libm (ui_update_mouse_button demo_init .button_pressed)
      [.begin_frame (1 / 60), .end_frame, .update_mouse_button .button_idle]).map
        (fun c => c.mouse_down) = some false := by
  decide!

/-- C16 (amended): after `ui_update_mouse_button pressed`, `mouse_down` is true and stays true
through every sequence of later calls that return (`ui_begin_frame`, `ui_end_frame`,
mouse-position updates, window and widget calls, and button updates that report pressed)
until `ui_update_mouse_button` is called with released or with idle, which makes it false. -/
theorem mouse_down_held_until_other_update (m : libm) (ctx c' : ui_context) (ops : List ui_op)
    (hops : ∀ b, ui_op.update_mouse_button b ∈ ops → b = .button_pressed)
    (h : run_ops m (ui_update_mouse_button ctx .button_pressed) ops = some c') :
    (ui_update_mouse_button ctx .button_pressed).mouse_down = true ∧
    c'.mouse_down = true ∧
    (ui_update_mouse_button c' .button_released).mouse_down = false ∧
    (ui_update_mouse_button c' .button_idle).mouse_down = false := by
  refine ⟨rfl, ?_, rfl, rfl⟩
  exact run_ops_mouse_down m ops _ c' rfl hops h

/-- Witness for C16 (amended): after the press, a frame with a window and widgets and a second
frame, `mouse_down` is still true. -/
theorem mouse_down_held_until_other_update_witness :
    ∃ c', run_ops demo_libm (ui_update_mouse_button demo_init .button_pressed) demo_ops
        = some c' ∧ c'.mouse_down = true := by
  have hsome : (run_ops demo_libm (ui_update_mouse_button demo_init .button_pressed)
      demo_ops).isSome = true := by decide!
  obtain ⟨c', h⟩ := Option.isSome_iff_exists.mp hsome
  exact ⟨c', h, (mouse_down_held_until_other_update demo_libm demo_init c' demo_ops
    (fun b hb => by
      simp only [demo_ops, List.mem_cons, List.mem_singleton, reduceCtorEq,
        ui_op.update_mouse_button.injEq, false_or, or_false, List.not_mem_nil] at hb
      exact hb) h).2.1⟩

theorem ui_newlines_layout (k : Nat) (X : ui_context) (w : ui_window)
    (hw : X.window = some w) (hx : X.layout.x = w.pos.x + X.padding * 2)
    (hwd : X.layout.width = w.width - X.padding * 4) :
    ∃ c', ui_newlines k X = some c' ∧
      c'.layout = ⟨w.pos.x + X.padding * 2, X.layout.y + (k : ℚ) * X.row_height,
        w.width - X.padding * 4, X.layout.height⟩ := by
  induction k generalizing X with
  | zero =>
    refine ⟨X, rfl, ?_⟩
    cases hl : X.layout with
    | mk lx ly lw lh =>
      rw [hl] at hx hwd
      simp only at hx hwd
      simp [hx, hwd]
  | succ k ih =>
    obtain ⟨c', h, hl⟩ := ih { X with layout := newline_layout X w } hw rfl rfl
    refine ⟨c', ?_, ?_⟩
    · simp only [ui_newlines]
      rw [ui_newline_eq X w hw]
      exact h
    · rw [hl]
      simp only [newline_layout, ui_rect.mk.injEq, true_and, and_true]
      push_cast
      ring

/-! ### Layout cursor after `ui_begin_window` -/

/-- C18 (fails on the code in the frames where the call moves the window): in the second frame
of scenario S1 the window "W", 400 wide, is dragged from (100, 100) to (200, 200) by
`ui_begin_window`; with `padding = 8` and `row_height = 48` the cursor after the call and `k`
calls of `ui_newline` is x = 216, y = 164 + 48 k, width 368, height 48, while the formula of
the claim gives y = 264 + 48 k for a window at (200, 200).  In every call the cursor is
x = wx + 2 padding, y = wy0 + 2 padding + (k + 1) row_height, width = W - 4 padding,
height = row_height, where (wx, wy) is the position after the call and wy0 the y position
before it: the formula of the claim holds whenever the call does not move the window. -/
theorem layout_cursor_uses_stale_window_y :
    (demo_s1_later.windows[0]?.map (fun w => w.pos) = some ⟨100, 100⟩ ∧
      demo_s1_later.padding = 8 ∧ demo_s1_later.row_height = 48 ∧
      ((ui_begin_window demo_s1_later demo_name 100 100 400 300).bind fun c =>
        c.windows[0]?.map fun w => (w.pos, w.width)) = some (⟨200, 200⟩, 400) ∧
      (ui_begin_window demo_s1_later demo_name 100 100 400 300).map (fun c => c.layout)
        = some ⟨216, 164, 368, 48⟩ ∧
      ((ui_begin_window demo_s1_later demo_name 100 100 400 300).bind fun c =>
        (ui_newlines 2 c).map fun c => c.layout) = some ⟨216, 260, 368, 48⟩ ∧
      (200 : ℚ) + 2 * 8 + (2 + 1) * 48 = 360) ∧
    (∀ (ctx : ui_context) (name : c_string) (x y width height : ℚ) (i : Nat) (w0 : ui_window)
      (k : Nat),
      (window_entry ctx name x y width height).map (fun e => e.2) = some (i, w0) →
      ∃ c1 w1 ck, ui_begin_window ctx name x y width height = some c1 ∧
        c1.windows[i]? = some w1 ∧ w1.width = w0.width ∧
        ((ctx.mouse_down = false ∨ ctx.dragging_object ≠ .window i) → w1.pos = w0.pos) ∧
        ui_newlines k c1 = some ck ∧
        ck.layout = ⟨w1.pos.x + 2 * ctx.padding,
          w0.pos.y + 2 * ctx.padding + ((k : ℚ) + 1) * ctx.row_height,
          w1.width - 4 * ctx.padding, ctx.row_height⟩) := by
  refine ⟨by decide!, ?_⟩
  intro ctx name x y width height i w0 k he
  obtain ⟨⟨c, i', w0'⟩, he', hiw⟩ := Option.map_eq_some'.mp he
  simp only [Prod.mk.injEq] at hiw
  rw [hiw.1, hiw.2] at he'
  obtain ⟨hlt, hget, _, _, hmd, hdo, _, hpad, hrow⟩ :=
    window_entry_index ctx c name x y width height i w0 he'
  obtain ⟨_, hcase⟩ := window_entry_cases ctx c name x y width height i w0 he'
  have hcw : c.current_window = some i := by
    rcases hcase with ⟨hc, _⟩ | ⟨hc, _⟩ <;> rw [hc]
  obtain ⟨p, d, o, log, hb, hkeep, _⟩ := begin_window_body_state c i w0
  have hwin : (begin_window_body c i w0).window = some { w0 with pos := p } := by
    rw [hb]
    simp [ui_context.window, hcw, hlt]
  obtain ⟨ck, hk, hl⟩ := ui_newlines_layout k (begin_window_body c i w0) { w0 with pos := p }
    hwin (by rw [hb]; simp only []; ring) (by rw [hb]; simp only []; ring)
  refine ⟨begin_window_body c i w0, { w0 with pos := p }, ck, ?_, ?_, rfl, ?_, hk, ?_⟩
  · unfold ui_begin_window
    rw [he']
    rfl
  · rw [hb]
    simp [hlt]
  · intro hno
    have hp : p = w0.pos := hkeep (by rw [hmd, hdo]; exact hno)
    rw [hp]
  · rw [hl, hb]
    simp only [ui_rect.mk.injEq, hpad, hrow]
    refine ⟨by ring, by ring, by ring, trivial⟩

/-! ### Draw calls of a frame with an idle mouse -/

theorem find_window_append (id : Nat) (ws : List ui_window) (w : ui_window) (i : Nat)
    (cur : Option Nat) :
    find_window id (ws ++ [w]) i cur =
      if w.id = id then some (i + ws.length) else find_window id ws i cur := by
  induction ws generalizing i cur with
  | nil => simp [find_window]
  | cons v ws ih =>
    show find_window id (ws ++ [w]) (i + 1) (if v.id = id then some i else cur) =
      if w.id = id then some (i + (v :: ws).length)
      else find_window id ws (i + 1) (if v.id = id then some i else cur)
    rw [ih]
    by_cases hw : w.id = id
    · simp only [hw, if_true, Option.some.injEq, List.length_cons]
      omega
    · simp only [hw, if_false]

/-- The first part of `ui_begin_window` in one form for both outcomes: the table `W` of the
context returned holds the entry at the index the lookup finds in `W`. -/
theorem window_entry_find (ctx c : ui_context) (name : c_string) (x y width height : ℚ)
    (i : Nat) (w0 : ui_window) (he : window_entry ctx name x y width height = some (c, i, w0)) :
    ctx.current_window = none ∧
    ∃ W, c = { ctx with windows := W, current_window := some i } ∧
      find_window (ui_hash name.bytes) W 0 none = some i ∧ W[i]? = some w0 := by
  unfold window_entry at he
  by_cases hcur : ctx.current_window ≠ none
  · rw [if_pos hcur] at he
    exact absurd he (by simp)
  · rw [if_neg hcur] at he
    refine ⟨not_not.mp hcur, ?_⟩
    simp only [] at he
    cases hf : find_window (ui_hash name.bytes) ctx.windows 0 none with
    | some j =>
      rw [hf] at he
      simp only [] at he
      cases hw : ctx.windows.get? j with
      | none =>
        rw [hw] at he
        exact absurd he (by simp)
      | some w =>
        rw [hw] at he
        simp only [Option.some.injEq, Prod.mk.injEq] at he
        obtain ⟨rfl, rfl, rfl⟩ := he
        exact ⟨ctx.windows, rfl, hf, by simpa using hw⟩
    | none =>
      rw [hf] at he
      simp only [] at he
      by_cases hn : ctx.num_windows < MAX_WINDOWS
      · rw [if_pos hn] at he
        simp only [Option.some.injEq, Prod.mk.injEq] at he
        obtain ⟨rfl, rfl, rfl⟩ := he
        refine ⟨_, rfl, ?_, ?_⟩
        · rw [find_window_append]
          simp [ui_context.num_windows]
        · simp [ui_context.num_windows]
      · rw [if_neg hn] at he
        exact absurd he (by simp)

theorem window_draws_congr (c d : ui_context) (w : ui_window)
    (hr : d.row_height = c.row_height) (hp : d.padding = c.padding)
    (hcr : d.corners_radius = c.corners_radius) (hcol : d.colors = c.colors)
    (htw : d.renderer.text_width = c.renderer.text_width) :
    window_draws d w = window_draws c w := by
  simp only [window_draws, title_rect0, hr, hp, hcr, hcol, htw]

theorem drop_append_length {α : Type} (l r : List α) : (l ++ r).drop l.length = r := by
  simp

theorem color_byte_eq (c k : Nat) : color_byte c k = c / 2 ^ (8 * k) % 256 := by
  unfold color_byte
  rw [Nat.shiftRight_eq_div_pow]
  exact Nat.and_pow_two_sub_one_eq_mod _ 8

theorem color_byte_lt (c k : Nat) : color_byte c k < 256 := by
  rw [color_byte_eq]
  exact Nat.mod_lt _ (by norm_num)

theorem pack_bytes (A B G R : Nat) (hA : A < 256) (hB : B < 256) (hG : G < 256)
    (hR : R < 256) :
    ((A <<< 24) % 4294967296) ||| ((B <<< 16) % 4294967296) ||| ((G <<< 8) % 4294967296) ||| R
      = A * 16777216 + B * 65536 + G * 256 + R := by
  have h1 : (A <<< 24) % 4294967296 = A * 16777216 := by
    rw [Nat.shiftLeft_eq]; omega
  have h2 : (B <<< 16) % 4294967296 = B * 65536 := by
    rw [Nat.shiftLeft_eq]; omega
  have h3 : (G <<< 8) % 4294967296 = G * 256 := by
    rw [Nat.shiftLeft_eq]; omega
  rw [h1, h2, h3]
  have e1 : A * 16777216 ||| B * 65536 = (A * 256 + B) * 65536 := by
    have h := Nat.mul_add_lt_is_or (show B * 65536 < 2 ^ 24 by omega) A
    rw [show (2 : ℕ) ^ 24 * A = A * 16777216 by ring] at h
    rw [← h]; ring
  rw [e1]
  have e2 : (A * 256 + B) * 65536 ||| G * 256 = ((A * 256 + B) * 256 + G) * 256 := by
    have h := Nat.mul_add_lt_is_or (show G * 256 < 2 ^ 16 by omega) (A * 256 + B)
    rw [show (2 : ℕ) ^ 16 * (A * 256 + B) = (A * 256 + B) * 65536 by ring] at h
    rw [← h]; ring
  rw [e2]
  have e3 := Nat.mul_add_lt_is_or (show R < 2 ^ 8 by omega) ((A * 256 + B) * 256 + G)
  rw [show (2 : ℕ) ^ 8 * ((A * 256 + B) * 256 + G) = ((A * 256 + B) * 256 + G) * 256 by ring]
    at e3
  rw [← e3]; ring

/-- One blended channel lies between the two channels it blends. -/
theorem blend_between (x y T : Nat) (hT : T ≤ 256) :
    min x y ≤ (x * (256 - T) + y * T) / 256 ∧ (x * (256 - T) + y * T) / 256 ≤ max x y := by
  constructor
  · rw [Nat.le_div_iff_mul_le (by norm_num)]
    calc min x y * 256 = min x y * (256 - T) + min x y * T := by
          rw [← Nat.mul_add]; congr 1; omega
      _ ≤ x * (256 - T) + y * T :=
          Nat.add_le_add (Nat.mul_le_mul_right _ (min_le_left x y))
            (Nat.mul_le_mul_right _ (min_le_right x y))
  · apply Nat.div_le_of_le_mul
    calc x * (256 - T) + y * T ≤ max x y * (256 - T) + max x y * T :=
          Nat.add_le_add (Nat.mul_le_mul_right _ (le_max_left x y))
            (Nat.mul_le_mul_right _ (le_max_right x y))
      _ = 256 * max x y := by
          rw [← Nat.mul_add, Nat.mul_comm]; congr 1; omega

/-- The packed result of `lerp_color` when `t * 256` truncates to `T` with `T ≤ 256`. -/
theorem lerp_color_eq (a b : Nat) (t : ℚ) (T : Nat) (hT : T ≤ 256)
    (htt : float_to_int (t * 256) = (T : ℤ)) :
    lerp_color a b t =
      (color_byte a 3 * (256 - T) + color_byte b 3 * T) / 256 * 16777216 +
      (color_byte a 2 * (256 - T) + color_byte b 2 * T) / 256 * 65536 +
      (color_byte a 1 * (256 - T) + color_byte b 1 * T) / 256 * 256 +
      (color_byte a 0 * (256 - T) + color_byte b 0 * T) / 256 := by
  have hu1 : to_uint32 (256 - (T : ℤ)) = 256 - T := by
    unfold to_uint32; omega
  have hu2 : to_uint32 (T : ℤ) = T := by
    unfold to_uint32; omega
  have hch : ∀ k, ((color_byte a k * (256 - T) + color_byte b k * T) % 4294967296) >>> 8 =
      (color_byte a k * (256 - T) + color_byte b k * T) / 256 := by
    intro k
    have hx := color_byte_lt a k
    have hy := color_byte_lt b k
    have hb := (blend_between (color_byte a k) (color_byte b k) T hT).2
    have hsum : color_byte a k * (256 - T) + color_byte b k * T < 4294967296 := by
      have h1 : color_byte a k * (256 - T) ≤ 256 * 256 :=
        Nat.mul_le_mul (le_of_lt hx) (by omega)
      have h2 : color_byte b k * T ≤ 256 * 256 := Nat.mul_le_mul (le_of_lt hy) hT
      omega
    rw [Nat.mod_eq_of_lt hsum, Nat.shiftRight_eq_div_pow]
  have hlt : ∀ k, (color_byte a k * (256 - T) + color_byte b k * T) / 256 < 256 := by
    intro k
    have hx := color_byte_lt a k
    have hy := color_byte_lt b k
    have hb := (blend_between (color_byte a k) (color_byte b k) T hT).2
    exact lt_of_le_of_lt hb (max_lt hx hy)
  unfold lerp_color
  simp only [htt, hu1, hu2]
  have h3 := hch 3
  have h2 := hch 2
  have h1 := hch 1
  have h0 := hch 0
  simp only [color_byte, Nat.mul_zero, Nat.mul_one, Nat.shiftRight_zero] at h3 h2 h1 h0 ⊢
  rw [h3, h2, h1, h0]
  exact pack_bytes _ _ _ _ (by simpa [color_byte] using hlt 3) (by simpa [color_byte] using hlt 2)
    (by simpa [color_byte] using hlt 1) (by simpa [color_byte] using hlt 0)

theorem float_to_int_scaled (t : ℚ) (h0 : 0 ≤ t) (h1 : t ≤ 1) :
    float_to_int (t * 256) = ((⌊t * 256⌋.toNat : ℕ) : ℤ) ∧ ⌊t * 256⌋.toNat ≤ 256 := by
  have hnn : (0 : ℚ) ≤ t * 256 := by positivity
  have hfl : 0 ≤ ⌊t * 256⌋ := Int.floor_nonneg.mpr hnn
  have hle : ⌊t * 256⌋ ≤ 256 := by
    have h : t * 256 ≤ ((256 : ℤ) : ℚ) := by push_cast; linarith
    exact (Int.floor_le_floor h).trans (le_of_eq (Int.floor_intCast 256))
  constructor
  · unfold float_to_int
    rw [if_pos hnn, Int.toNat_of_nonneg hfl]
  · omega

theorem unpack_bytes (A B G R k : Nat) (hA : A < 256) (hB : B < 256) (hG : G < 256)
    (hR : R < 256) (hk : k < 4) :
    color_byte (A * 16777216 + B * 65536 + G * 256 + R) k =
      if k = 3 then A else if k = 2 then B else if k = 1 then G else R := by
  rw [color_byte_eq]
  interval_cases k <;> norm_num <;> omega

/-- C21: for `t` in [0, 1] and 32-bit colours `a`, `b`, `lerp_color a b t` has, in each of its
four bytes (A, B, G, R from the most to the least significant), the value
`floor((a_c * (256 - tt) + b_c * tt) / 256)` with `tt = floor(t * 256)`, where `a_c`, `b_c` are
the bytes of `a`, `b` at the same position; that byte lies between `a_c` and `b_c`; the result
is a 32-bit word; `lerp_color a b 0 = a` and `lerp_color a b 1 = b`. -/
theorem lerp_color_per_channel (a b : Nat) (t : ℚ) (ha : a < 4294967296) (hb : b < 4294967296)
    (h0 : 0 ≤ t) (h1 : t ≤ 1) :
    (∀ k, k < 4 →
      color_byte (lerp_color a b t) k =
        (color_byte a k * (256 - ⌊t * 256⌋.toNat) + color_byte b k * ⌊t * 256⌋.toNat) / 256 ∧
      min (color_byte a k) (color_byte b k) ≤ color_byte (lerp_color a b t) k ∧
      color_byte (lerp_color a b t) k ≤ max (color_byte a k) (color_byte b k)) ∧
    lerp_color a b t < 4294967296 ∧ lerp_color a b 0 = a ∧ lerp_color a b 1 = b := by
  obtain ⟨htt, hT⟩ := float_to_int_scaled t h0 h1
  have hlt : ∀ T, T ≤ 256 → ∀ k,
      (color_byte a k * (256 - T) + color_byte b k * T) / 256 < 256 := by
    intro T hT k
    exact lt_of_le_of_lt (blend_between (color_byte a k) (color_byte b k) T hT).2
      (max_lt (color_byte_lt a k) (color_byte_lt b k))
  have hbyte : ∀ k, k < 4 → color_byte (lerp_color a b t) k =
      (color_byte a k * (256 - ⌊t * 256⌋.toNat) + color_byte b k * ⌊t * 256⌋.toNat) / 256 := by
    intro k hk
    rw [lerp_color_eq a b t _ hT htt,
      unpack_bytes _ _ _ _ k (hlt _ hT 3) (hlt _ hT 2) (hlt _ hT 1) (hlt _ hT 0) hk]
    interval_cases k <;> rfl
  refine ⟨fun k hk => ⟨hbyte k hk, ?_⟩, ?_, ?_, ?_⟩
  · rw [hbyte k hk]
    exact blend_between _ _ _ hT
  · rw [lerp_color_eq a b t _ hT htt]
    have h3 := hlt _ hT 3
    have h2 := hlt _ hT 2
    have h1 := hlt _ hT 1
    have h0 := hlt _ hT 0
    omega
  · have hz : float_to_int ((0 : ℚ) * 256) = ((0 : ℕ) : ℤ) := by
      simp [float_to_int]
    rw [lerp_color_eq a b 0 0 (by norm_num) hz]
    simp only [color_byte_eq]
    norm_num
    omega
  · have hz : float_to_int ((1 : ℚ) * 256) = ((256 : ℕ) : ℤ) := by
      simp [float_to_int]
    rw [lerp_color_eq a b 1 256 (by norm_num) hz]
    simp only [color_byte_eq]
    norm_num
    omega

/-- Witness for C21: the hover tween of the button at t = 1/6 between `widget_bg` and
`widget_hover`; the blue byte is floor((0xE6 * 214 + 0xDB * 42) / 256) = 0xE4. -/
theorem lerp_color_per_channel_witness :
    color_byte (lerp_color 0xFFF4E6D8 0xFFEEDBC3 (1 / 6)) 1 = 0xE4 ∧
      lerp_color 0xFFF4E6D8 0xFFEEDBC3 0 = 0xFFF4E6D8 ∧
      lerp_color 0xFFF4E6D8 0xFFEEDBC3 1 = 0xFFEEDBC3 := by
  obtain ⟨hk, _, h0, h1⟩ := lerp_color_per_channel 0xFFF4E6D8 0xFFEEDBC3 (1 / 6) (by norm_num)
    (by norm_num) (by norm_num) (by norm_num)
  refine ⟨?_, h0, h1⟩
  rw [(hk 1 (by norm_num)).1]
  decide!

/-! ### Hash of the window name -/

theorem ui_hash_foldl (data : List Nat) (h0 : Nat) (hb : ∀ p, p ∈ data → p < 256) :
    data.foldl (fun hash p => ((hash ^^^ (p % 256)) * 0x01000193) % 4294967296) h0 =
      fnv1a_32 data h0 := by
  induction data generalizing h0 with
  | nil => rfl
  | cons p rest ih =>
    simp only [List.foldl_cons, fnv1a_32]
    rw [Nat.mod_eq_of_lt (hb p (List.mem_cons_self p rest))]
    exact ih _ fun q hq => hb q (List.mem_cons_of_mem p hq)

/-- C22: on a string of bytes `ui_hash` is the 32-bit FNV-1a hash started from 0x811C9DC5; the
empty string hashes to 0x811C9DC5 and the string "a" to 0xE40C292C; the hash is a 32-bit
word; the entry `ui_begin_window` opens for a name carries the hash of the name as its id,
whether the entry was found or created. -/
theorem ui_hash_is_fnv1a :
    (∀ data : List Nat, (∀ p, p ∈ data → p < 256) → ui_hash data = fnv1a_32 data 0x811C9DC5) ∧
    ui_hash [] = 0x811C9DC5 ∧ ui_hash [97] = 0xE40C292C ∧
    (∀ data : List Nat, ui_hash data < 4294967296) ∧
    (∀ (ctx c : ui_context) (name : c_string) (x y width height : ℚ) (i : Nat)
      (w0 : ui_window), window_entry ctx name x y width height = some (c, i, w0) →
      w0.id = ui_hash name.bytes ∧ c.windows[i]? = some w0 ∧ c.current_window = some i) := by
  refine ⟨fun data hb => ui_hash_foldl data _ hb, by decide, by decide, ?_, ?_⟩
  · intro data
    unfold ui_hash
    induction data using List.reverseRecOn with
    | nil => norm_num
    | append_singleton l p _ =>
      rw [List.foldl_append]
      exact Nat.mod_lt _ (by norm_num)
  · intro ctx c name x y width height i w0 he
    obtain ⟨_, hcase⟩ := window_entry_cases ctx c name x y width height i w0 he
    obtain ⟨_, hget, _⟩ := window_entry_index ctx c name x y width height i w0 he
    rcases hcase with ⟨hc, _, hid⟩ | ⟨hc, _, hw, _⟩
    · exact ⟨hid, hget, by rw [hc]⟩
    · exact ⟨by rw [hw], hget, by rw [hc]⟩

/-! ### Aligned text -/

/-- C23: `draw_align_text` issues exactly one call, a `draw_text` of the given text and colour
whose y is the top of the rectangle and whose x is `rect.x` for left alignment,
`rect.x + rect.width - text_width text` for right alignment and
`rect.x + (rect.width - text_width text) / 2` for centre alignment; it changes nothing else in
the context. -/
theorem draw_align_text_one_call (ctx : ui_context) (rect : ui_rect) (text : List Nat)
    (srgb_color : Nat) (alignment : ui_text_alignment) :
    draw_align_text ctx rect text srgb_color alignment =
      { ctx with renderer := { ctx.renderer with user := ctx.renderer.user ++
        [.draw_text
          (match alignment with
            | .align_left => rect.x
            | .align_right => rect.x + rect.width - ctx.renderer.text_width text
            | .align_center => rect.x + (rect.width - ctx.renderer.text_width text) / 2)
          rect.y text srgb_color] } } := by
  cases alignment
  · simp [draw_align_text, emit]
  · simp only [draw_align_text, emit, reduceCtorEq, if_false]
    have h : rect.x + rect.width * (1 / 2) - ctx.renderer.text_width text * (1 / 2) =
        rect.x + (rect.width - ctx.renderer.text_width text) / 2 := by ring
    rw [h]
  · simp [draw_align_text, emit]

/-! ### Title bar and border -/

/-- The first two calls of the second part of `ui_begin_window`: the border at the position
`p` the entry has after the call, the title bar at the position the entry had before it. -/
theorem begin_window_body_boxes (c : ui_context) (i : Nat) (w0 : ui_window) :
    ∃ p rest, (begin_window_body c i w0).renderer.user = c.renderer.user ++
        (.draw_box p.x p.y w0.width w0.height c.corners_radius c.colors.window_border ::
          .draw_box (w0.pos.x + c.padding) (w0.pos.y + c.padding) (w0.width - c.padding * 2)
            c.row_height c.corners_radius c.colors.title_bg :: rest) ∧
      (begin_window_body c i w0).windows = c.windows.set i { w0 with pos := p } ∧
      ((c.mouse_down = false ∨ c.dragging_object ≠ .window i) → p = w0.pos) := by
  unfold begin_window_body
  simp only [draw_align_text_emit, emit, title_rect0, List.append_assoc, List.singleton_append]
  split_ifs <;> refine ⟨_, _, rfl, rfl, ?_⟩ <;> simp_all [ui_vec2_sub_sub]

/-- C24 (fails on the code in the frames where the call moves the window): in the second frame
of scenario S1 the window "W", 400 by 300, is dragged from (100, 100) to (200, 200) by
`ui_begin_window`; with `padding = 8` the border box is drawn at (200, 200) and the title bar
at (108, 108), where the border inset by the padding is at (208, 208).  In every call the
border is drawn at the position the entry has after the call and the title bar at the position
it had before the call, inset by the padding, `width - 2 * padding` wide and `row_height` high:
the title bar is the border inset by the padding whenever the call does not move the window. -/
theorem title_bar_uses_stale_window_position :
    (demo_s1_later.padding = 8 ∧ demo_s1_later.row_height = 48 ∧
      demo_s1_later.windows[0]?.map (fun w => w.pos) = some ⟨100, 100⟩ ∧
      (ui_begin_window demo_s1_later demo_name 100 100 400 300).map
          (fun c => (draws_since demo_s1_later c).take 2) =
        some [.draw_box 200 200 400 300 16 0xFFE3CDB8, .draw_box 108 108 384 48 16 0xFFE5C4A8]) ∧
    (∀ (ctx : ui_context) (name : c_string) (x y width height : ℚ) (i : Nat) (w0 : ui_window),
      (window_entry ctx name x y width height).map (fun e => e.2) = some (i, w0) →
      ∃ c1 w1, ui_begin_window ctx name x y width height = some c1 ∧
        c1.windows[i]? = some w1 ∧ w1.width = w0.width ∧ w1.height = w0.height ∧
        (draws_since ctx c1).take 2 =
          [.draw_box w1.pos.x w1.pos.y w1.width w1.height ctx.corners_radius
              ctx.colors.window_border,
            .draw_box (w0.pos.x + ctx.padding) (w0.pos.y + ctx.padding)
              (w0.width - ctx.padding * 2) ctx.row_height ctx.corners_radius
              ctx.colors.title_bg] ∧
        ((ctx.mouse_down = false ∨ ctx.dragging_object ≠ .window i) → w1.pos = w0.pos)) := by
  refine ⟨by decide!, ?_⟩
  intro ctx name x y width height i w0 he
  obtain ⟨⟨c, i', w0'⟩, he', hiw⟩ := Option.map_eq_some'.mp he
  simp only [Prod.mk.injEq] at hiw
  rw [hiw.1, hiw.2] at he'
  obtain ⟨_, W, hc, _, hW⟩ := window_entry_find ctx c name x y width height i w0 he'
  obtain ⟨p, rest, hu, hws, hkeep⟩ := begin_window_body_boxes c i w0
  have hlt : i < W.length := by
    by_contra hn
    rw [List.getElem?_eq_none (not_lt.mp hn)] at hW
    exact absurd hW (by simp)
  refine ⟨begin_window_body c i w0, { w0 with pos := p }, ?_, ?_, rfl, rfl, ?_, ?_⟩
  · unfold ui_begin_window
    rw [he']
    rfl
  · rw [hws, hc]
    simp [hlt]
  · unfold draws_since
    rw [hu, hc]
    simp only [drop_append_length]
    rfl
  · intro hno
    have hp : p = w0.pos := hkeep (by rw [hc]; exact hno)
    rw [hp]

/-! ### Tween endpoints -/

theorem lerp_color_zero (a b : Nat) (ha : a < 4294967296) : lerp_color a b 0 = a := by
  have hz : float_to_int ((0 : ℚ) * 256) = ((0 : ℕ) : ℤ) := by
    simp [float_to_int]
  rw [lerp_color_eq a b 0 0 (by norm_num) hz]
  simp only [color_byte_eq]
  norm_num
  omega

theorem lerp_color_one (a b : Nat) (hb : b < 4294967296) : lerp_color a b 1 = b := by
  have hz : float_to_int ((1 : ℚ) * 256) = ((256 : ℕ) : ℤ) := by
    simp [float_to_int]
  rw [lerp_color_eq a b 1 256 (by norm_num) hz]
  simp only [color_byte_eq]
  norm_num
  omega

theorem lerp_float_zero (a b : ℚ) : lerp_float a b 0 = a := by
  simp [lerp_float]

theorem lerp_float_one (a b : ℚ) : lerp_float a b 1 = b := by
  simp [lerp_float]

/-- The toggle away from a click and with no animation of its own: the steady-state calls. -/
theorem ui_toggle_steady_eq (ctx : ui_context) (label : c_string) (value : Ptr) (v : Bool)
    (hno : (in_rect (toggle_track_rect ctx) ctx.mouse_pos &&
      decide (ctx.mouse_button = .button_pressed)) = false)
    (hanim : ctx.animation.widget ≠ value) :
    ui_toggle ctx label value v =
      (ui_newline { ctx with renderer := { ctx.renderer with
        user := ctx.renderer.user ++ toggle_draws ctx label v } }).map
        (fun c => (v, c)) := by
  unfold ui_toggle
  simp only [toggle_track_rect] at hno
  simp only [draw_align_text_emit, emit, hno, hanim, Bool.false_eq_true, if_false,
    List.append_assoc, List.singleton_append, toggle_draws, toggle_track_rect,
    List.cons_append, List.nil_append]

/-- The toggle at a click: the value flips, the animation is installed with progress 0, and
the calls are the steady-state calls of the value before the click. -/
theorem ui_toggle_click_eq (ctx : ui_context) (label : c_string) (value : Ptr) (v : Bool)
    (hacc : ctx.colors.accent < 4294967296) (hsep : ctx.colors.separator < 4294967296)
    (hit : (in_rect (toggle_track_rect ctx) ctx.mouse_pos &&
      decide (ctx.mouse_button = .button_pressed)) = true) :
    ui_toggle ctx label value v =
      (ui_newline { ctx with
        animation := toggle_animation ctx value (!v) 0
        renderer := { ctx.renderer with
          user := ctx.renderer.user ++ toggle_draws ctx label v } }).map
        (fun c => (!v, c)) := by
  unfold ui_toggle
  simp only [toggle_track_rect] at hit
  cases v
  · simp only [draw_align_text_emit, emit, hit, if_true, List.append_assoc,
      List.singleton_append, toggle_draws, toggle_track_rect, toggle_animation,
      List.cons_append, List.nil_append, Bool.not_false, Bool.not_true, Bool.false_eq_true,
      if_false, sub_zero, lerp_float_one, lerp_color_one _ _ hsep]
  · simp only [draw_align_text_emit, emit, hit, if_true, List.append_assoc,
      List.singleton_append, toggle_draws, toggle_track_rect, toggle_animation,
      List.cons_append, List.nil_append, Bool.not_false, Bool.not_true, Bool.false_eq_true,
      if_false, sub_zero, lerp_float_zero, lerp_color_zero _ _ hacc]

/-- The toggle away from a click, with the animation a click to `v` installed, at progress
`t`: the calls in terms of the tween position `w` of the thumb and colour of the track. -/
theorem ui_toggle_tween_eq (ctx : ui_context) (label : c_string) (value : Ptr) (v u : Bool)
    (t : ℚ)
    (hno : (in_rect (toggle_track_rect ctx) ctx.mouse_pos &&
      decide (ctx.mouse_button = .button_pressed)) = false)
    (ha : ctx.animation = toggle_animation ctx value v t)
    (hx : lerp_float ((toggle_track_rect ctx).x + ctx.font_height - 2)
        ((toggle_track_rect ctx).x + 2) (if (!v) = true then t else 1 - t) =
      if u = true then (toggle_track_rect ctx).x + ctx.font_height - 2
      else (toggle_track_rect ctx).x + 2)
    (hc : lerp_color ctx.colors.accent ctx.colors.separator
        (if (!v) = true then t else 1 - t) =
      if u = true then ctx.colors.accent else ctx.colors.separator) :
    ui_toggle ctx label value v =
      (ui_newline { ctx with renderer := { ctx.renderer with
        user := ctx.renderer.user ++ toggle_draws ctx label u } }).map
        (fun c => (v, c)) := by
  unfold ui_toggle
  simp only [toggle_track_rect] at hno hx hc
  simp only [draw_align_text_emit, emit, hno, Bool.false_eq_true, if_false,
    List.append_assoc, List.singleton_append, toggle_draws, toggle_track_rect,
    List.cons_append, List.nil_append]
  rw [ha]
  simp only [toggle_animation, toggle_track_rect, if_true, hx, hc]

/-- C25: for a toggle drawn with 32-bit accent and separator colours.  At a click in the track
the value flips, the animation is installed with progress 0 and the calls issued are the
steady-state calls of the value before the click.  Away from a click: with no animation for
the toggle the calls are the steady-state calls `toggle_draws` of the value (thumb at
`track.x + font_height - 2` and accent track when on, thumb at `track.x + 2` and separator
track when off); with the animation a click to the value `v` installed for the same track
rectangle, the calls at progress 0 are the steady-state calls of the value before the click,
`!v`, and the calls at progress 1 are the steady-state calls of `v`, whichever of the two
values `v` is. -/
theorem toggle_tween_endpoints (ctx : ui_context) (label : c_string) (value : Ptr) (v : Bool)
    (hacc : ctx.colors.accent < 4294967296) (hsep : ctx.colors.separator < 4294967296) :
    ((in_rect (toggle_track_rect ctx) ctx.mouse_pos &&
        decide (ctx.mouse_button = .button_pressed)) = true →
      ui_toggle ctx label value v =
        (ui_newline { ctx with
          animation := toggle_animation ctx value (!v) 0
          renderer := { ctx.renderer with
            user := ctx.renderer.user ++ toggle_draws ctx label v } }).map
          (fun c => (!v, c))) ∧
    ((in_rect (toggle_track_rect ctx) ctx.mouse_pos &&
        decide (ctx.mouse_button = .button_pressed)) = false →
      (ctx.animation.widget ≠ value →
        ui_toggle ctx label value v =
          (ui_newline { ctx with renderer := { ctx.renderer with
            user := ctx.renderer.user ++ toggle_draws ctx label v } }).map
            (fun c => (v, c))) ∧
      (ctx.animation = toggle_animation ctx value v 0 →
        ui_toggle ctx label value v =
          (ui_newline { ctx with renderer := { ctx.renderer with
            user := ctx.renderer.user ++ toggle_draws ctx label (!v) } }).map
            (fun c => (v, c))) ∧
      (ctx.animation = toggle_animation ctx value v 1 →
        ui_toggle ctx label value v =
          (ui_newline { ctx with renderer := { ctx.renderer with
            user := ctx.renderer.user ++ toggle_draws ctx label v } }).map
            (fun c => (v, c)))) := by
  refine ⟨ui_toggle_click_eq ctx label value v hacc hsep, fun hno => ⟨?_, ?_, ?_⟩⟩
  · exact ui_toggle_steady_eq ctx label value v hno
  · intro ha
    refine ui_toggle_tween_eq ctx label value v (!v) 0 hno ha ?_ ?_
    · cases v <;> simp [lerp_float_zero, lerp_float_one]
    · cases v <;> simp [lerp_color_zero _ _ hacc, lerp_color_one _ _ hsep]
  · intro ha
    refine ui_toggle_tween_eq ctx label value v v 1 hno ha ?_ ?_
    · cases v <;> simp [lerp_float_zero, lerp_float_one]
    · cases v <;> simp [lerp_color_zero _ _ hacc, lerp_color_one _ _ hsep]

/-- Witness for C25: scenario S2, a click inside the track of a toggle that is off; the value
becomes true and the calls are those of a toggle that is off. -/
theorem toggle_tween_endpoints_witness :
    (ui_toggle (demo_press 960 80) demo_label (.user 5) false).map
        (fun r => (r.1, draws_since (demo_press 960 80) r.2)) =
      some (true, toggle_draws (demo_press 960 80) demo_label false) := by
  rw [(toggle_tween_endpoints (demo_press 960 80) demo_label (.user 5) false (by decide!)
    (by decide!)).1 (by decide!)]
  decide!

theorem timer_step_refl (c : ui_context) (id : Option Ptr) : timer_step c c id :=
  ⟨rfl, Or.inl rfl, Or.inl rfl⟩

theorem timer_step_trans {c X Y : ui_context} {id : Option Ptr} (h1 : timer_step c X id)
    (h2 : timer_step X Y id) : timer_step c Y id := by
  obtain ⟨hb1, ha1, hh1⟩ := h1
  obtain ⟨hb2, ha2, hh2⟩ := h2
  refine ⟨hb2.trans hb1, ?_, ?_⟩
  · rcases ha2 with ha2 | ⟨hp, ht, hw⟩
    · rw [ha2]; exact ha1
    · exact Or.inr ⟨hb1 ▸ hp, ht, hw⟩
  · rcases hh2 with hh2 | hh2
    · rw [hh2]; exact hh1
    · exact Or.inr hh2

/-- A context that agrees with `X` on the two slots and the button state is reached by the
same step. -/
theorem timer_step_congr {c X Y : ui_context} {id : Option Ptr} (h : timer_step c X id)
    (hb : Y.mouse_button = X.mouse_button) (ha : Y.animation = X.animation)
    (hh : Y.hover = X.hover) : timer_step c Y id := by
  unfold timer_step at h ⊢
  rw [hb, ha, hh]
  exact h

theorem timer_step_emit {c X : ui_context} {id : Option Ptr} (x : draw_call)
    (h : timer_step c X id) : timer_step c (emit X x) id :=
  timer_step_congr h rfl rfl rfl

theorem timer_step_vsnprintf {c X : ui_context} {id : Option Ptr} (f : List Nat)
    (h : timer_step c X id) : timer_step c (vsnprintf X f) id :=
  timer_step_congr h rfl rfl rfl

theorem timer_step_text {c X : ui_context} {id : Option Ptr} (rect : ui_rect)
    (text : List Nat) (color : Nat) (a : ui_text_alignment) (h : timer_step c X id) :
    timer_step c (draw_align_text X rect text color a) id := by
  rw [draw_align_text_emit]
  exact timer_step_emit _ h

theorem timer_step_ite {c X Y : ui_context} {id : Option Ptr} (p : Prop) [Decidable p]
    (h1 : p → timer_step c X id) (h2 : ¬p → timer_step c Y id) :
    timer_step c (if p then X else Y) id := by
  split_ifs with hp
  · exact h1 hp
  · exact h2 hp

/-- Installing an animation for the widget with progress 0, at a pressed edge. -/
theorem timer_step_install {c X : ui_context} {p : Ptr} (a : ui_animation)
    (h : timer_step c X (some p)) (hp : X.mouse_button = .button_pressed) (ht : a.t = 0)
    (hw : a.widget = p) : timer_step c { X with animation := a } (some p) := by
  obtain ⟨hb, _, hh⟩ := h
  exact ⟨hb, Or.inr ⟨hb ▸ hp, ht, by rw [hw]⟩, hh⟩

theorem timer_step_newline {c X c' : ui_context} {id : Option Ptr} (hs : timer_step c X id)
    (h : ui_newline X = some c') : timer_step c c' id := by
  unfold ui_newline at h
  split at h
  · exact absurd h (by simp)
  · rw [← Option.some.inj h]
    exact timer_step_congr hs rfl rfl rfl

theorem timer_step_map_newline {α : Type} {c X c' : ui_context} {id : Option Ptr} (v v' : α)
    (hs : timer_step c X id) (h : (ui_newline X).map (fun c => (v, c)) = some (v', c')) :
    timer_step c c' id := by
  obtain ⟨cn, hn, hc⟩ := Option.map_eq_some'.mp h
  simp only [Prod.mk.injEq] at hc
  rw [← hc.2]
  exact timer_step_newline hs hn

theorem ui_text_timers (c c' : ui_context) (alignment : ui_text_alignment)
    (formatted : List Nat) (h : ui_text c alignment formatted = some c') :
    timer_step c c' none := by
  unfold ui_text at h
  split_ifs at h
  simp only [Option.some.injEq] at h
  rw [← h]
  exact timer_step_text _ _ _ _ (timer_step_vsnprintf _ (timer_step_refl c _))

theorem ui_separator_timers (c c' : ui_context) (h : ui_separator c = some c') :
    timer_step c c' none := by
  unfold ui_separator at h
  split_ifs at h
  exact timer_step_newline (timer_step_emit _ (timer_step_refl c _)) h

theorem ui_value_timers (c c' : ui_context) (label : c_string) (formatted : List Nat)
    (h : ui_value c label formatted = some c') : timer_step c c' none := by
  unfold ui_value at h
  split_ifs at h
  exact timer_step_newline (timer_step_text _ _ _ _ (timer_step_emit _ (timer_step_emit _
    (timer_step_emit _ (timer_step_vsnprintf _ (timer_step_refl c _)))))) h

theorem ui_toggle_timers (c c' : ui_context) (label : c_string) (value : Ptr) (v v' : Bool)
    (h : ui_toggle c label value v = some (v', c')) : timer_step c c' (some value) := by
  unfold ui_toggle at h
  refine timer_step_map_newline _ _ ?_ h
  refine timer_step_emit _ (timer_step_emit _ (timer_step_ite _ ?_ ?_))
  · intro hit
    refine timer_step_install _ (timer_step_text _ _ _ _ (timer_step_refl c _)) ?_ rfl rfl
    simp only [Bool.and_eq_true, decide_eq_true_eq] at hit
    exact hit.2
  · intro _
    exact timer_step_text _ _ _ _ (timer_step_refl c _)

theorem segmented_cell_timers (entries : List c_string) (selected : Ptr) (st : segmented_state)
    (i : Nat) : timer_step st.ctx (segmented_cell entries selected st i).ctx (some selected) := by
  unfold segmented_cell
  simp only []
  refine timer_step_ite _ (fun _ => ?_) (fun _ => ?_)
  · refine timer_step_emit _ (timer_step_text _ _ _ _ (timer_step_ite _ ?_ ?_))
    · intro hit
      refine timer_step_install _ (timer_step_refl _ _) ?_ rfl rfl
      simp only [Bool.and_eq_true, decide_eq_true_eq] at hit
      exact hit.2
    · intro _
      exact timer_step_ite _ (fun _ => timer_step_emit _ (timer_step_refl _ _))
        (fun _ => timer_step_refl _ _)
  · refine timer_step_text _ _ _ _ (timer_step_ite _ ?_ ?_)
    · intro hit
      refine timer_step_install _ (timer_step_refl _ _) ?_ rfl rfl
      simp only [Bool.and_eq_true, decide_eq_true_eq] at hit
      exact hit.2
    · intro _
      exact timer_step_ite _ (fun _ => timer_step_emit _ (timer_step_refl _ _))
        (fun _ => timer_step_refl _ _)

theorem segmented_fold_timers (entries : List c_string) (selected : Ptr) (l : List Nat)
    (st : segmented_state) :
    timer_step st.ctx (l.foldl (segmented_cell entries selected) st).ctx (some selected) := by
  induction l generalizing st with
  | nil => exact timer_step_refl _ _
  | cons i l ih =>
    rw [List.foldl_cons]
    exact timer_step_trans (segmented_cell_timers entries selected st i) (ih _)

theorem ui_segmented_timers (c c' : ui_context) (entries : List c_string) (num_entries : Nat)
    (selected : Ptr) (sel sel' : Nat)
    (h : ui_segmented c entries num_entries selected sel = some (sel', c')) :
    timer_step c c' (some selected) := by
  unfold ui_segmented at h
  refine timer_step_map_newline _ _ ?_ h
  refine timer_step_trans ?_ (segmented_fold_timers entries selected _ _)
  exact timer_step_ite _ (fun _ => timer_step_emit _ (timer_step_emit _ (timer_step_refl c _)))
    (fun _ => timer_step_emit _ (timer_step_refl c _))

theorem slider_pointer_timers (c : ui_context) (value : Ptr) (tr th : ui_rect) (x : ℚ) :
    timer_step c (slider_pointer c value tr th x) (some value) := by
  unfold slider_pointer
  simp only []
  have h1 : timer_step c
      (if in_rect th c.mouse_pos = true then
        if c.mouse_button = .button_pressed then
          { c with dragging_object := value
                   dragging_offset := { c.dragging_offset with x := c.mouse_pos.x - x } }
        else c
      else if in_rect tr c.mouse_pos = true ∧ c.mouse_button = .button_pressed then
        if ({ c with animation := ⟨x, c.mouse_pos.x, 0, 0, false, 0, value⟩ } :
            ui_context).dragging_object = value then
          { ({ c with animation := ⟨x, c.mouse_pos.x, 0, 0, false, 0, value⟩ } : ui_context)
            with dragging_object := .null }
        else { c with animation := ⟨x, c.mouse_pos.x, 0, 0, false, 0, value⟩ }
      else c) (some value) := by
    refine timer_step_ite _ (fun _ => ?_) (fun _ => ?_)
    · exact timer_step_ite _
        (fun _ => timer_step_congr (timer_step_refl c _) rfl rfl rfl)
        (fun _ => timer_step_refl c _)
    · refine timer_step_ite _ (fun hp => ?_) (fun _ => timer_step_refl c _)
      have hi : timer_step c
          { c with animation := ⟨x, c.mouse_pos.x, 0, 0, false, 0, value⟩ } (some value) :=
        timer_step_install _ (timer_step_refl c _) hp.2 rfl rfl
      exact timer_step_ite _ (fun _ => timer_step_congr hi rfl rfl rfl) (fun _ => hi)
  exact timer_step_ite _ (fun _ => timer_step_congr h1 rfl rfl rfl) (fun _ => h1)

theorem slider_row2_timers (c c' : ui_context) (min_value max_value step : ℚ) (value : Ptr)
    (v v' : ℚ) (h : slider_row2 c min_value max_value step value v = some (v', c')) :
    timer_step c c' (some value) := by
  unfold slider_row2 at h
  refine timer_step_map_newline _ _ ?_ h
  exact timer_step_emit _ (timer_step_trans (timer_step_emit _ (timer_step_refl c _))
    (slider_pointer_timers _ _ _ _ _))

theorem ui_slider_timers (c c' : ui_context) (label : c_string)
    (min_value max_value step : ℚ) (value : Ptr) (v v' : ℚ) (fmt : ℚ → List Nat)
    (h : ui_slider c label min_value max_value step value v fmt = some (v', c')) :
    timer_step c c' (some value) := by
  unfold ui_slider at h
  split_ifs at h
  simp only [] at h
  split at h
  · exact absurd h (by simp)
  · rename_i c1 hn
    exact timer_step_trans
      (timer_step_newline (timer_step_text _ _ _ _ (timer_step_text _ _ _ _
        (timer_step_vsnprintf _ (timer_step_refl c _)))) hn)
      (slider_row2_timers c1 c' _ _ _ _ _ _ h)

theorem ui_button_timers (m : libm) (c : ui_context) (label : c_string)
    (alignment : ui_text_alignment) :
    timer_step c (ui_button m c label alignment).2 (some label.addr) := by
  unfold ui_button
  simp only []
  refine timer_step_emit _ (timer_step_emit _ (timer_step_emit _ ?_))
  split_ifs with h1 h2 h3 h4 h5 h6
  all_goals first
    | exact timer_step_refl c _
    | exact timer_step_install _ (timer_step_refl c _) h3 rfl rfl
    | exact ⟨rfl, Or.inl rfl, Or.inr rfl⟩

theorem widget_call_timers (m : libm) (c c' : ui_context) (call : widget_call)
    (h : call.run m c = some c') : timer_step c c' call.identity := by
  cases call with
  | text alignment formatted => exact ui_text_timers c c' alignment formatted h
  | value label formatted => exact ui_value_timers c c' label formatted h
  | separator => exact ui_separator_timers c c' h
  | toggle label ptr v =>
    simp only [widget_call.run, Option.map_eq_some'] at h
    obtain ⟨⟨v', c2⟩, h2, rfl⟩ := h
    exact ui_toggle_timers c c2 label ptr v v' h2
  | segmented entries num_entries selected sel =>
    simp only [widget_call.run, Option.map_eq_some'] at h
    obtain ⟨⟨sel', c2⟩, h2, rfl⟩ := h
    exact ui_segmented_timers c c2 entries num_entries selected sel sel' h2
  | slider label min_value max_value step ptr v fmt =>
    simp only [widget_call.run, Option.map_eq_some'] at h
    obtain ⟨⟨v', c2⟩, h2, rfl⟩ := h
    exact ui_slider_timers c c2 label min_value max_value step ptr v v' fmt h2
  | button label alignment =>
    simp only [widget_call.run, Option.some.injEq] at h
    rw [← h]
    exact ui_button_timers m c label alignment

theorem ui_begin_window_slots (ctx c' : ui_context) (name : c_string) (x y width height : ℚ)
    (h : ui_begin_window ctx name x y width height = some c') :
    c'.animation = ctx.animation ∧ c'.hover = ctx.hover := by
  obtain ⟨c, i, w0, he, rfl⟩ := ui_begin_window_inv ctx c' name x y width height h
  obtain ⟨_, W, rfl, _, _⟩ := window_entry_find ctx c name x y width height i w0 he
  obtain ⟨p, d, o, log, hb, _⟩ :=
    begin_window_body_state { ctx with windows := W, current_window := some i } i w0
  rw [hb]
  exact ⟨rfl, rfl⟩

theorem timers_in_range_step {c c' : ui_context} {id : Option Ptr} (hs : timer_step c c' id)
    (hin : timers_in_range c) : timers_in_range c' := by
  obtain ⟨_, ha, hh⟩ := hs
  obtain ⟨h1, h2, h3, h4⟩ := hin
  refine ⟨?_, ?_, ?_, ?_⟩
  · rcases ha with ha | ⟨_, ht, _⟩
    · rw [ha]; exact h1
    · rw [ht]
  · rcases ha with ha | ⟨_, ht, _⟩
    · rw [ha]; exact h2
    · rw [ht]; norm_num
  · rcases hh with hh | hh
    · rw [hh]; exact h3
    · rw [hh]
  · rcases hh with hh | hh
    · rw [hh]; exact h4
    · rw [hh]; norm_num

/-- What one call of the interface does to the progress of the animation slot, from a context
whose progress values are in range. -/
theorem ui_op_run_timers (m : libm) (op : ui_op) (c c' : ui_context)
    (hin : timers_in_range c) (hdt : ∀ dt, op = .begin_frame dt → 0 ≤ dt)
    (h : op.run m c = some c') :
    timers_in_range c' ∧
    (∀ dt, op = .begin_frame dt →
      c'.animation.t = min 1 (c.animation.t + dt / ANIMATION_DURATION) ∧
      c.animation.t ≤ c'.animation.t ∧ c.hover.t ≤ c'.hover.t) ∧
    (op = .end_frame → c'.animation.t = c.animation.t) ∧
    (∀ call, op = .widget call → timer_step c c' call.identity) ∧
    ((∀ dt, op ≠ .begin_frame dt) → op ≠ .end_frame → (∀ call, op ≠ .widget call) →
      c'.animation = c.animation) := by
  obtain ⟨h1, h2, h3, h4⟩ := hin
  cases op with
  | update_mouse_pos x y =>
    simp only [ui_op.run, Option.some.injEq] at h
    subst h
    exact ⟨⟨h1, h2, h3, h4⟩, fun _ hh => absurd hh (by simp), fun hh => absurd hh (by simp),
      fun _ hh => absurd hh (by simp), fun _ _ _ => rfl⟩
  | update_mouse_button button =>
    simp only [ui_op.run, Option.some.injEq] at h
    subst h
    exact ⟨⟨h1, h2, h3, h4⟩, fun _ hh => absurd hh (by simp), fun hh => absurd hh (by simp),
      fun _ hh => absurd hh (by simp), fun _ _ _ => rfl⟩
  | begin_frame delta_time =>
    simp only [ui_op.run, Option.some.injEq] at h
    subst h
    have hd := hdt delta_time rfl
    have hda : 0 ≤ delta_time / ANIMATION_DURATION :=
      div_nonneg hd (by unfold ANIMATION_DURATION; norm_num)
    have hdh : 0 ≤ delta_time / HOVER_DURATION :=
      div_nonneg hd (by unfold HOVER_DURATION; norm_num)
    have ea : (ui_begin_frame c delta_time).animation.t =
        min 1 (c.animation.t + delta_time / ANIMATION_DURATION) := rfl
    have eh : (ui_begin_frame c delta_time).hover.t =
        min 1 (c.hover.t + delta_time / HOVER_DURATION) := rfl
    refine ⟨⟨?_, ?_, ?_, ?_⟩, ?_, fun hh => absurd hh (by simp),
      fun _ hh => absurd hh (by simp), fun hh => absurd rfl (hh delta_time)⟩
    · rw [ea]; exact le_min (by norm_num) (by linarith)
    · rw [ea]; exact min_le_left _ _
    · rw [eh]; exact le_min (by norm_num) (by linarith)
    · rw [eh]; exact min_le_left _ _
    · intro dt hh
      simp only [ui_op.begin_frame.injEq] at hh
      subst hh
      refine ⟨ea, ?_, ?_⟩
      · rw [ea]; exact le_min h2 (by linarith)
      · rw [eh]; exact le_min h4 (by linarith)
  | begin_window name x y width height =>
    simp only [ui_op.run] at h
    obtain ⟨ha, hh⟩ := ui_begin_window_slots c c' name x y width height h
    refine ⟨⟨?_, ?_, ?_, ?_⟩, fun _ hh => absurd hh (by simp), fun hh => absurd hh (by simp),
      fun _ hh => absurd hh (by simp), fun _ _ _ => ha⟩
    · rw [ha]; exact h1
    · rw [ha]; exact h2
    · rw [hh]; exact h3
    · rw [hh]; exact h4
  | newline =>
    simp only [ui_op.run] at h
    have hs : timer_step c c' none := timer_step_newline (timer_step_refl c _) h
    refine ⟨timers_in_range_step hs ⟨h1, h2, h3, h4⟩, fun _ hh => absurd hh (by simp),
      fun hh => absurd hh (by simp), fun _ hh => absurd hh (by simp), fun _ _ _ => ?_⟩
    rcases hs.2.1 with ha | ⟨_, _, hw⟩
    · exact ha
    · exact absurd hw (by simp)
  | widget call =>
    simp only [ui_op.run] at h
    have hs := widget_call_timers m c c' call h
    refine ⟨timers_in_range_step hs ⟨h1, h2, h3, h4⟩, fun _ hh => absurd hh (by simp),
      fun hh => absurd hh (by simp), ?_, fun _ _ hh => absurd rfl (hh call)⟩
    intro call2 hh
    simp only [ui_op.widget.injEq] at hh
    subst hh
    exact hs
  | end_window =>
    simp only [ui_op.run, ui_end_window] at h
    split_ifs at h
    simp only [Option.some.injEq] at h
    subst h
    exact ⟨⟨h1, h2, h3, h4⟩, fun _ hh => absurd hh (by simp), fun hh => absurd hh (by simp),
      fun _ hh => absurd hh (by simp), fun _ _ _ => rfl⟩
  | end_frame =>
    simp only [ui_op.run, ui_end_frame] at h
    split_ifs at h with hcur ht
    · simp only [Option.some.injEq] at h
      subst h
      have ht1 : c.animation.t = 1 := le_antisymm h2 ht
      refine ⟨⟨by norm_num, by norm_num, h3, h4⟩, fun _ hh => absurd hh (by simp),
        fun _ => ht1.symm, fun _ hh => absurd hh (by simp), fun _ hh _ => absurd rfl hh⟩
    · simp only [Option.some.injEq] at h
      subst h
      exact ⟨⟨h1, h2, h3, h4⟩, fun _ hh => absurd hh (by simp), fun _ => rfl,
        fun _ hh => absurd hh (by simp), fun _ hh _ => absurd rfl hh⟩

theorem run_ops_timers (m : libm) (ops : List ui_op) (c c' : ui_context)
    (hin : timers_in_range c) (hdt : ∀ dt, ui_op.begin_frame dt ∈ ops → 0 ≤ dt)
    (h : run_ops m c ops = some c') : timers_in_range c' := by
  induction ops generalizing c with
  | nil =>
    simp only [run_ops, Option.some.injEq] at h
    rw [← h]; exact hin
  | cons op ops ih =>
    simp only [run_ops] at h
    cases h1 : op.run m c with
    | none => rw [h1] at h; exact absurd h (by simp)
    | some c1 =>
      rw [h1, Option.some_bind] at h
      have hstep := (ui_op_run_timers m op c c1 hin
        (fun dt hh => hdt dt (by rw [hh]; exact List.mem_cons_self _ _)) h1).1
      exact ih c1 hstep (fun dt hh => hdt dt (List.mem_cons_of_mem _ hh)) h

/-- C28: the progress values of the animation slot and of the hover slot are 0 after
`ui_init` and stay in [0, 1] over every sequence of calls whose `ui_begin_frame` deltas are
all nonnegative.  From a context with the values in range, each call that returns either does
not lower `animation.t`, or is a widget call at a pressed edge that leaves an animation with
the widget's identity and progress 0: `ui_begin_frame` with a nonnegative delta raises it to
`min 1 (t + dt / 0.2)`, `ui_end_frame` keeps its value, a widget call keeps the whole slot
unless it installs, and every other call keeps the whole slot. -/
theorem animation_progress_never_decreases (m : libm) :
    (∀ d : ui_def, (ui_init d).animation.t = 0 ∧ (ui_init d).hover.t = 0 ∧
      timers_in_range (ui_init d)) ∧
    (∀ (ops : List ui_op) (c c' : ui_context), timers_in_range c →
      (∀ dt, ui_op.begin_frame dt ∈ ops → 0 ≤ dt) → run_ops m c ops = some c' →
      timers_in_range c') ∧
    (∀ (op : ui_op) (c c' : ui_context), timers_in_range c →
      (∀ dt, op = .begin_frame dt → 0 ≤ dt) → op.run m c = some c' →
      (c.animation.t ≤ c'.animation.t ∨
        ∃ call, op = .widget call ∧ c.mouse_button = .button_pressed ∧ c'.animation.t = 0 ∧
          some c'.animation.widget = call.identity) ∧
      (∀ dt, op = .begin_frame dt →
        c'.animation.t = min 1 (c.animation.t + dt / ANIMATION_DURATION)) ∧
      (op = .end_frame → c'.animation.t = c.animation.t) ∧
      (∀ call, op = .widget call → c'.animation = c.animation ∨
        (c.mouse_button = .button_pressed ∧ c'.animation.t = 0 ∧
          some c'.animation.widget = call.identity)) ∧
      ((∀ dt, op ≠ .begin_frame dt) → op ≠ .end_frame → (∀ call, op ≠ .widget call) →
        c'.animation = c.animation)) := by
  refine ⟨fun d => ⟨rfl, rfl, by unfold timers_in_range ui_init; norm_num⟩,
    fun ops c c' => run_ops_timers m ops c c', ?_⟩
  intro op c c' hin hdt h
  obtain ⟨_, hbf, hef, hwc, hother⟩ := ui_op_run_timers m op c c' hin hdt h
  refine ⟨?_, fun dt hh => (hbf dt hh).1, hef, fun call hh => (hwc call hh).2.1, hother⟩
  cases op with
  | begin_frame dt => exact Or.inl (hbf dt rfl).2.1
  | end_frame => exact Or.inl (le_of_eq (hef rfl).symm)
  | widget call =>
    rcases (hwc call rfl).2.1 with ha | hinst
    · exact Or.inl (by rw [ha])
    · exact Or.inr ⟨call, rfl, hinst⟩
  | update_mouse_pos x y =>
    exact Or.inl (by rw [hother (by simp) (by simp) (by simp)])
  | update_mouse_button b =>
    exact Or.inl (by rw [hother (by simp) (by simp) (by simp)])
  | begin_window name x y width height =>
    exact Or.inl (by rw [hother (by simp) (by simp) (by simp)])
  | newline => exact Or.inl (by rw [hother (by simp) (by simp) (by simp)])
  | end_window => exact Or.inl (by rw [hother (by simp) (by simp) (by simp)])

end LeanUI
